import Mathlib

/-!
Verification development for the gold→Neo4j meal-planning / shopping-list
synchronization pipeline.

The embedding below translates the three source files:
  * `src/pipelines/meal_plan_pipeline.py`
  * `src/pipelines/shopping_list_pipeline.py`
  * `src/workers/runner.py`
into Lean definitions.  The graph store is modelled extensionally: each node
label has a map from node id (the relational primary key, carried as the `id`
property) to its scalar properties, and the relationship set is a Boolean
characteristic function on typed edges.  The Cypher merge statements are
translated clause by clause; the relational loaders are translated from the
SQL text of the loader methods.
-/

/-- Cypher `coalesce(a, b)` restricted to the two-argument form used by the
pipelines: the first argument when it is non-null, otherwise the second. -/
def coalesce (a b : Option String) : Option String :=
  match a with
  | some s => some s
  | none => b

/-- Cypher `datetime(x)`: null maps to null, a non-null value is converted to
a temporal value.  The conversion is modelled as an injective tag so that
equal inputs give equal outputs and distinct inputs stay distinct. -/
def cypherDatetime (s : Option String) : Option String :=
  s.map (fun v => "dt:" ++ v)

/-- A typed relationship: source label and id, relationship type, destination
label and id.  Neo4j relationships of the shapes created here are uniquely
determined by these five components (every `MERGE` on a relationship in the
source is between two id-addressed nodes). -/
structure Edge where
  srcLabel : String
  srcId : String
  rel : String
  dstLabel : String
  dstId : String
deriving DecidableEq, Repr

/-- Properties of a `Household` node, as assigned by the `SET` clauses. -/
structure HouseholdProps where
  household_name : Option String
  household_type : Option String
deriving DecidableEq, Repr

/-- Properties of a `MealPlan` node.  The source sets a property called
`list_name` from the snapshot's `plan_name` column. -/
structure MealPlanProps where
  list_name : Option String
  start_date : Option String
  end_date : Option String
  status : Option String
  frequency : Option String
  created_at : Option String
  updated_at : Option String
deriving DecidableEq, Repr

/-- Properties of a `MealPlanItem` node. -/
structure MealPlanItemProps where
  meal_date : Option String
  meal_type : Option String
  servings : Option String
  for_member_ids : Option String
  estimated_cost : Option String
  calories_per_serving : Option String
  status : Option String
  rating : Option String
  notes : Option String
  created_at : Option String
deriving DecidableEq, Repr

/-- Properties of a `Recipe` node (`SET r.title = coalesce(...)`). -/
structure RecipeProps where
  title : Option String
deriving DecidableEq, Repr

/-- Properties of a `ShoppingList` node. -/
structure ShoppingListProps where
  list_name : Option String
  total_estimated_cost : Option String
  status : Option String
  created_at : Option String
  updated_at : Option String
deriving DecidableEq, Repr

/-- Properties of a `ShoppingListItem` node. -/
structure ShoppingListItemProps where
  item_name : Option String
  quantity : Option String
  unit : Option String
  category : Option String
  estimated_price : Option String
  actual_price : Option String
  is_purchased : Option String
  notes : Option String
  created_at : Option String
deriving DecidableEq, Repr

/-- Properties of a `Vendor` node. -/
structure VendorProps where
  name : Option String
deriving DecidableEq, Repr

/-- Properties of a `Product` node. -/
structure ProductProps where
  name : Option String
deriving DecidableEq, Repr

/-- Properties of an `Ingredient` node. -/
structure IngredientProps where
  name : Option String
deriving DecidableEq, Repr

/-- A per-label node table: node id ↦ properties (absent = node not in graph). -/
abbrev NodeMap (α : Type) := String → Option α

/-- The graph store state: one node table per label plus the relationship set. -/
structure Graph where
  households : NodeMap HouseholdProps
  mealPlans : NodeMap MealPlanProps
  mealPlanItems : NodeMap MealPlanItemProps
  shoppingLists : NodeMap ShoppingListProps
  shoppingListItems : NodeMap ShoppingListItemProps
  vendors : NodeMap VendorProps
  products : NodeMap ProductProps
  ingredients : NodeMap IngredientProps
  recipes : NodeMap RecipeProps
  edges : Edge → Bool

/-- The empty graph. -/
def Graph.empty : Graph where
  households := fun _ => none
  mealPlans := fun _ => none
  mealPlanItems := fun _ => none
  shoppingLists := fun _ => none
  shoppingListItems := fun _ => none
  vendors := fun _ => none
  products := fun _ => none
  ingredients := fun _ => none
  recipes := fun _ => none
  edges := fun _ => false

/-- Point update of a node table (`MERGE` on the id followed by `SET` of every
property the pipeline writes). -/
def upd {α : Type} (m : NodeMap α) (k : String) (v : α) : NodeMap α :=
  fun x => if x = k then some v else m x

/-- `MERGE` on a relationship: ensure the edge is present. -/
def addEdge (g : Graph) (e : Edge) : Graph :=
  { g with edges := fun x => if x = e then true else g.edges x }

/-! ## Relational rows

Row shapes produced by the SQL loaders.  Primary keys and `NOT NULL` foreign
keys that the merge uses as a node id are `String`; every other column is
`Option String` (SQL null = `none`, all scalars abstracted as strings). -/

/-- Result row of `MealPlanPipeline.load_meal_plan`:
`SELECT mp.*, h.household_name, h.household_type FROM meal_plans mp
LEFT JOIN households h ON h.id = mp.household_id WHERE mp.id = %s`. -/
structure MealPlanRow where
  id : String
  household_id : String
  plan_name : Option String
  start_date : Option String
  end_date : Option String
  status : Option String
  frequency : Option String
  created_at : Option String
  updated_at : Option String
  household_name : Option String
  household_type : Option String
deriving DecidableEq, Repr

/-- Result row of `MealPlanPipeline.load_items`:
`SELECT mpi.*, r.id AS recipe_id, r.title AS recipe_name FROM meal_plan_items
mpi JOIN recipes r ON r.id = mpi.recipe_id ...` — the inner join makes
`recipe_id` non-null in every result row. -/
structure MealItemRow where
  id : String
  meal_date : Option String
  meal_type : Option String
  servings : Option String
  for_member_ids : Option String
  estimated_cost : Option String
  calories_per_serving : Option String
  status : Option String
  rating : Option String
  notes : Option String
  created_at : Option String
  recipe_id : String
  recipe_name : Option String
deriving DecidableEq, Repr

/-- Result row of `ShoppingListPipeline.load_shopping_list`:
`SELECT sl.*, h.household_name, h.household_type, v.id AS vendor_id,
v.name AS vendor_name FROM shopping_lists sl LEFT JOIN households h ...
LEFT JOIN vendors v ON v.id = sl.vendor_id WHERE sl.id = %s`. -/
structure ShoppingListRow where
  id : String
  household_id : String
  list_name : Option String
  total_estimated_cost : Option String
  status : Option String
  created_at : Option String
  updated_at : Option String
  household_name : Option String
  household_type : Option String
  vendor_id : Option String
  vendor_name : Option String
deriving DecidableEq, Repr

/-- Result row of `ShoppingListPipeline.load_items`:
`SELECT sli.*, p.id AS product_id, p.name AS product_name, i.id AS
ingredient_id, i.name AS ingredient_name FROM shopping_list_items sli
LEFT JOIN products p ... LEFT JOIN ingredients i ...`. -/
structure SLItemRow where
  id : String
  item_name : Option String
  quantity : Option String
  unit : Option String
  category : Option String
  estimated_price : Option String
  actual_price : Option String
  is_purchased : Option String
  notes : Option String
  created_at : Option String
  product_id : Option String
  product_name : Option String
  ingredient_id : Option String
  ingredient_name : Option String
  substituted_product_id : Option String
deriving DecidableEq, Repr

/-! ## Meal-plan pipeline: Cypher semantics -/

/-- The `HAS_ITEM` edge from a meal plan to one of its items. -/
def mpHasItemE (mpId itemId : String) : Edge :=
  ⟨"MealPlan", mpId, "HAS_ITEM", "MealPlanItem", itemId⟩

/-- The `USES_RECIPE` edge from a meal-plan item to its recipe. -/
def usesRecipeE (itemId recipeId : String) : Edge :=
  ⟨"MealPlanItem", itemId, "USES_RECIPE", "Recipe", recipeId⟩

/-- The `HAS_MEAL_PLAN` edge from a household to a meal plan. -/
def hasMealPlanE (hId mpId : String) : Edge :=
  ⟨"Household", hId, "HAS_MEAL_PLAN", "MealPlan", mpId⟩

/-- The `MealPlanItem` properties assigned by the `SET` clause of the item
`MERGE` in `_upsert_cypher`. -/
def mealItemProps (it : MealItemRow) : MealPlanItemProps :=
  ⟨it.meal_date, it.meal_type, it.servings, it.for_member_ids,
   it.estimated_cost, it.calories_per_serving, it.status, it.rating, it.notes,
   cypherDatetime it.created_at⟩

/-- `MERGE (r:Recipe {id: rid}) SET r.title = coalesce(nm, r.title)`: a fresh
node starts with a null title; the title is only overwritten when `nm` is
non-null. -/
def mergeRecipe (m : NodeMap RecipeProps) (rid : String) (nm : Option String) :
    NodeMap RecipeProps :=
  let old : Option String :=
    match m rid with
    | some r => r.title
    | none => none
  upd m rid ⟨coalesce nm old⟩

/-- One iteration of the `UNWIND $items AS it` block of
`MealPlanPipeline._upsert_cypher`: merge the item node and set its
properties, ensure the `HAS_ITEM` edge, merge the recipe with a coalesced
title, ensure the `USES_RECIPE` edge. -/
def mergeMealItem (mpId : String) (g : Graph) (it : MealItemRow) : Graph :=
  let g1 := { g with mealPlanItems := upd g.mealPlanItems it.id (mealItemProps it) }
  let g2 := addEdge g1 (mpHasItemE mpId it.id)
  let g3 := { g2 with recipes := mergeRecipe g2.recipes it.recipe_id it.recipe_name }
  addEdge g3 (usesRecipeE it.id it.recipe_id)

/-- Does edge `e` touch the `MealPlanItem` node with an id satisfying `kids`?
Used by the `DETACH DELETE oldItem` clause. -/
def touchesMPI (kids : String → Bool) (e : Edge) : Bool :=
  (e.srcLabel == "MealPlanItem" && kids e.srcId) ||
  (e.dstLabel == "MealPlanItem" && kids e.dstId)

/-- The ids of the current `HAS_ITEM` children of meal plan `mpId`:
`OPTIONAL MATCH (mp)-[oldRel:HAS_ITEM]->(oldItem:MealPlanItem)`. -/
def mpKids (g : Graph) (mpId : String) : String → Bool :=
  fun i => g.edges (mpHasItemE mpId i)

/-- The "Clear old items" clause of `MealPlanPipeline._upsert_cypher`:
`DETACH DELETE oldItem` removes every current child item node together with
every relationship incident to it. -/
def clearMealPlanItems (g : Graph) (mpId : String) : Graph :=
  let kids := mpKids g mpId
  { g with
    mealPlanItems := fun i => if kids i then none else g.mealPlanItems i,
    edges := fun e => if touchesMPI kids e then false else g.edges e }

/-- The `MealPlan` properties assigned by the `SET` clause of
`MealPlanPipeline._upsert_cypher` (note `mp.list_name = $meal_plan.plan_name`
and the `datetime(...)` conversions). -/
def mealPlanProps (p : MealPlanRow) : MealPlanProps :=
  ⟨p.plan_name, p.start_date, p.end_date, p.status, p.frequency,
   cypherDatetime p.created_at, cypherDatetime p.updated_at⟩

/-- `MealPlanPipeline._upsert_cypher` applied to a snapshot: upsert the
household, upsert the meal plan, ensure the ownership edge, clear the old
item collection, then merge each snapshot item in order. -/
def upsertMealPlan (g : Graph) (p : MealPlanRow) (items : List MealItemRow) :
    Graph :=
  let g1 := { g with
    households := upd g.households p.household_id ⟨p.household_name, p.household_type⟩ }
  let g2 := { g1 with mealPlans := upd g1.mealPlans p.id (mealPlanProps p) }
  let g3 := addEdge g2 (hasMealPlanE p.household_id p.id)
  let g4 := clearMealPlanItems g3 p.id
  items.foldl (mergeMealItem p.id) g4

/-- Does edge `e` touch the `MealPlan` node with id `mpId`? -/
def touchesMPNode (mpId : String) (e : Edge) : Bool :=
  (e.srcLabel == "MealPlan" && e.srcId == mpId) ||
  (e.dstLabel == "MealPlan" && e.dstId == mpId)

/-- `MealPlanPipeline._delete_cypher`:
`MATCH (mp:MealPlan {id: $id}) DETACH DELETE mp` — when the node exists,
remove it and every relationship incident to it; otherwise the `MATCH`
produces no row and nothing happens. -/
def deleteMealPlan (g : Graph) (mpId : String) : Graph :=
  match g.mealPlans mpId with
  | none => g
  | some _ =>
    { g with
      mealPlans := fun x => if x = mpId then none else g.mealPlans x,
      edges := fun e => if touchesMPNode mpId e then false else g.edges e }

/-! ## Shopping-list pipeline: Cypher semantics -/

/-- The `HAS_SHOPPING_LIST` edge from a household to a shopping list. -/
def hasShoppingListE (hId slId : String) : Edge :=
  ⟨"Household", hId, "HAS_SHOPPING_LIST", "ShoppingList", slId⟩

/-- The `TARGETS_VENDOR` edge from a shopping list to a vendor. -/
def targetsVendorE (slId vId : String) : Edge :=
  ⟨"ShoppingList", slId, "TARGETS_VENDOR", "Vendor", vId⟩

/-- The `HAS_ITEM` edge from a shopping list to one of its items. -/
def slHasItemE (slId itemId : String) : Edge :=
  ⟨"ShoppingList", slId, "HAS_ITEM", "ShoppingListItem", itemId⟩

/-- The `USES_PRODUCT` edge from a shopping-list item to a product. -/
def usesProductE (itemId pId : String) : Edge :=
  ⟨"ShoppingListItem", itemId, "USES_PRODUCT", "Product", pId⟩

/-- The `USES_INGREDIENT` edge from a shopping-list item to an ingredient. -/
def usesIngredientE (itemId iId : String) : Edge :=
  ⟨"ShoppingListItem", itemId, "USES_INGREDIENT", "Ingredient", iId⟩

/-- The `SUBSTITUTE_PRODUCT` edge from a shopping-list item to a product. -/
def substituteProductE (itemId pId : String) : Edge :=
  ⟨"ShoppingListItem", itemId, "SUBSTITUTE_PRODUCT", "Product", pId⟩

/-- The `GENERATES_LIST` edge from a meal plan to a shopping list. -/
def generatesListE (mpId slId : String) : Edge :=
  ⟨"MealPlan", mpId, "GENERATES_LIST", "ShoppingList", slId⟩

/-- The `ShoppingList` properties assigned by the `SET` clause of
`ShoppingListPipeline._upsert_cypher`. -/
def shoppingListProps (row : ShoppingListRow) : ShoppingListProps :=
  ⟨row.list_name, row.total_estimated_cost, row.status,
   cypherDatetime row.created_at, cypherDatetime row.updated_at⟩

/-- The `ShoppingListItem` properties assigned by the item `SET` clause. -/
def slItemProps (it : SLItemRow) : ShoppingListItemProps :=
  ⟨it.item_name, it.quantity, it.unit, it.category, it.estimated_price,
   it.actual_price, it.is_purchased, it.notes, cypherDatetime it.created_at⟩

/-- The "Vendor (optional)" `FOREACH` clause: skipped entirely when
`$vendor.id IS NULL`; otherwise merge the vendor node, set its name
unconditionally, and ensure the `TARGETS_VENDOR` edge. -/
def vendorStep (g : Graph) (slId : String) (vid vname : Option String) : Graph :=
  match vid with
  | none => g
  | some v =>
    let g1 := { g with vendors := upd g.vendors v ⟨vname⟩ }
    addEdge g1 (targetsVendorE slId v)

/-- `MERGE (p:Product {id: pid}) SET p.name = coalesce(nm, p.name)`. -/
def mergeProduct (m : NodeMap ProductProps) (pid : String) (nm : Option String) :
    NodeMap ProductProps :=
  let old : Option String :=
    match m pid with
    | some r => r.name
    | none => none
  upd m pid ⟨coalesce nm old⟩

/-- `MERGE (ing:Ingredient {id: iid}) SET ing.name = coalesce(nm, ing.name)`. -/
def mergeIngredient (m : NodeMap IngredientProps) (iid : String)
    (nm : Option String) : NodeMap IngredientProps :=
  let old : Option String :=
    match m iid with
    | some r => r.name
    | none => none
  upd m iid ⟨coalesce nm old⟩

/-- `MERGE (sp:Product {id: pid})` with no `SET` (the substituted-product
clause): create the node with a null name if absent, otherwise leave it. -/
def ensureProduct (m : NodeMap ProductProps) (pid : String) :
    NodeMap ProductProps :=
  match m pid with
  | some _ => m
  | none => upd m pid ⟨none⟩

/-- One iteration of the `UNWIND $items AS it` block of
`ShoppingListPipeline._upsert_cypher`: merge the item node, ensure the
`HAS_ITEM` edge, then run the three conditional `FOREACH` clauses for the
product, ingredient and substituted-product references. -/
def mergeSLItem (slId : String) (g : Graph) (it : SLItemRow) : Graph :=
  let g1 := { g with shoppingListItems := upd g.shoppingListItems it.id (slItemProps it) }
  let g2 := addEdge g1 (slHasItemE slId it.id)
  let g3 :=
    match it.product_id with
    | none => g2
    | some pid =>
      addEdge { g2 with products := mergeProduct g2.products pid it.product_name }
        (usesProductE it.id pid)
  let g4 :=
    match it.ingredient_id with
    | none => g3
    | some iid =>
      addEdge { g3 with ingredients := mergeIngredient g3.ingredients iid it.ingredient_name }
        (usesIngredientE it.id iid)
  match it.substituted_product_id with
  | none => g4
  | some spid =>
    addEdge { g4 with products := ensureProduct g4.products spid }
      (substituteProductE it.id spid)

/-- Does edge `e` touch the `ShoppingListItem` node with an id satisfying
`kids`? -/
def touchesSLI (kids : String → Bool) (e : Edge) : Bool :=
  (e.srcLabel == "ShoppingListItem" && kids e.srcId) ||
  (e.dstLabel == "ShoppingListItem" && kids e.dstId)

/-- The ids of the current `HAS_ITEM` children of shopping list `slId`. -/
def slKids (g : Graph) (slId : String) : String → Bool :=
  fun i => g.edges (slHasItemE slId i)

/-- The "Clear old items" clause of `ShoppingListPipeline._upsert_cypher`. -/
def clearShoppingListItems (g : Graph) (slId : String) : Graph :=
  let kids := slKids g slId
  { g with
    shoppingListItems := fun i => if kids i then none else g.shoppingListItems i,
    edges := fun e => if touchesSLI kids e then false else g.edges e }

/-- The "Link to meal plan if provided" clause: skipped when `$meal_plan_id IS
NULL`; otherwise the inner `MATCH (mp:MealPlan {id: $meal_plan_id})` only
produces a row when that node exists, in which case the `GENERATES_LIST`
edge is ensured; when the node does not exist the clause is a no-op. -/
def linkMealPlan (g : Graph) (mealPlanId : Option String) (slId : String) :
    Graph :=
  match mealPlanId with
  | none => g
  | some m =>
    match g.mealPlans m with
    | none => g
    | some _ => addEdge g (generatesListE m slId)

/-- `ShoppingListPipeline._upsert_cypher` applied to a snapshot: upsert the
household, upsert the shopping list, ensure the ownership edge, run the
optional vendor step, clear the old item collection, merge each snapshot item
in order, then run the optional meal-plan link step. -/
def upsertShoppingList (g : Graph) (row : ShoppingListRow)
    (items : List SLItemRow) (mealPlanId : Option String) : Graph :=
  let g1 := { g with
    households := upd g.households row.household_id ⟨row.household_name, row.household_type⟩ }
  let g2 := { g1 with shoppingLists := upd g1.shoppingLists row.id (shoppingListProps row) }
  let g3 := addEdge g2 (hasShoppingListE row.household_id row.id)
  let g4 := vendorStep g3 row.id row.vendor_id row.vendor_name
  let g5 := clearShoppingListItems g4 row.id
  let g6 := items.foldl (mergeSLItem row.id) g5
  linkMealPlan g6 mealPlanId row.id

/-- Does edge `e` touch the `ShoppingList` node with id `slId`? -/
def touchesSLNode (slId : String) (e : Edge) : Bool :=
  (e.srcLabel == "ShoppingList" && e.srcId == slId) ||
  (e.dstLabel == "ShoppingList" && e.dstId == slId)

/-- `ShoppingListPipeline._delete_cypher`:
`MATCH (sl:ShoppingList {id: $id}) DETACH DELETE sl`. -/
def deleteShoppingList (g : Graph) (slId : String) : Graph :=
  match g.shoppingLists slId with
  | none => g
  | some _ =>
    { g with
      shoppingLists := fun x => if x = slId then none else g.shoppingLists x,
      edges := fun e => if touchesSLNode slId e then false else g.edges e }

/-! ## Relational store and loaders

The tables the loader SQL reads, and the loader methods translated from
their SQL text.  `find?` on a table models a lookup by primary key. -/

/-- A `meal_plans` table row (columns used by the pipeline). -/
structure MealPlansTableRow where
  id : String
  household_id : String
  plan_name : Option String
  start_date : Option String
  end_date : Option String
  status : Option String
  frequency : Option String
  created_at : Option String
  updated_at : Option String
deriving DecidableEq, Repr

/-- A `households` table row. -/
structure HouseholdsTableRow where
  id : String
  household_name : Option String
  household_type : Option String
deriving DecidableEq, Repr

/-- A `meal_plan_items` table row. -/
structure MealPlanItemsTableRow where
  id : String
  meal_plan_id : String
  recipe_id : Option String
  meal_date : Option String
  meal_type : Option String
  servings : Option String
  for_member_ids : Option String
  estimated_cost : Option String
  calories_per_serving : Option String
  status : Option String
  rating : Option String
  notes : Option String
  created_at : Option String
deriving DecidableEq, Repr

/-- A `recipes` table row. -/
structure RecipesTableRow where
  id : String
  title : Option String
deriving DecidableEq, Repr

/-- A `shopping_lists` table row. -/
structure ShoppingListsTableRow where
  id : String
  household_id : String
  vendor_id : Option String
  meal_plan_id : Option String
  list_name : Option String
  total_estimated_cost : Option String
  status : Option String
  created_at : Option String
  updated_at : Option String
deriving DecidableEq, Repr

/-- A `vendors` table row. -/
structure VendorsTableRow where
  id : String
  name : Option String
deriving DecidableEq, Repr

/-- A `shopping_list_items` table row. -/
structure ShoppingListItemsTableRow where
  id : String
  shopping_list_id : String
  product_id : Option String
  ingredient_id : Option String
  substituted_product_id : Option String
  item_name : Option String
  quantity : Option String
  unit : Option String
  category : Option String
  estimated_price : Option String
  actual_price : Option String
  is_purchased : Option String
  notes : Option String
  created_at : Option String
deriving DecidableEq, Repr

/-- A `products` table row. -/
structure ProductsTableRow where
  id : String
  name : Option String
deriving DecidableEq, Repr

/-- An `ingredients` table row. -/
structure IngredientsTableRow where
  id : String
  name : Option String
deriving DecidableEq, Repr

/-- The relational store: the watched tables the loaders read. -/
structure RelDB where
  meal_plans : List MealPlansTableRow
  households : List HouseholdsTableRow
  meal_plan_items : List MealPlanItemsTableRow
  recipes : List RecipesTableRow
  shopping_lists : List ShoppingListsTableRow
  vendors : List VendorsTableRow
  shopping_list_items : List ShoppingListItemsTableRow
  products : List ProductsTableRow
  ingredients : List IngredientsTableRow

/-- SQL ascending comparison on a nullable column, nulls last (the Postgres
default for `ORDER BY ... ASC`). -/
def sqlLeAsc (a b : Option String) : Bool :=
  match a, b with
  | none, none => true
  | none, some _ => false
  | some _, none => true
  | some x, some y => x ≤ y

/-- `ORDER BY mpi.meal_date, mpi.meal_type` comparison on joined item rows. -/
def mealItemLe (a b : MealItemRow) : Bool :=
  if a.meal_date = b.meal_date then sqlLeAsc a.meal_type b.meal_type
  else sqlLeAsc a.meal_date b.meal_date

/-- Stable insertion into a list sorted by `le`. -/
def insertBy {α : Type} (le : α → α → Bool) (x : α) : List α → List α
  | [] => [x]
  | y :: ys => if le y x then y :: insertBy le x ys else x :: y :: ys

/-- Stable sort by `le` (models the SQL `ORDER BY`). -/
def sortBy {α : Type} (le : α → α → Bool) : List α → List α
  | [] => []
  | x :: xs => insertBy le x (sortBy le xs)

namespace MealPlanPipeline

/-- `MealPlanPipeline.load_meal_plan`: the `meal_plans` row with the given id,
left-joined to `households`; `none` when no such meal plan exists. -/
def load_meal_plan (db : RelDB) (meal_plan_id : String) : Option MealPlanRow :=
  (db.meal_plans.find? (fun mp => mp.id == meal_plan_id)).map (fun mp =>
    match db.households.find? (fun h => h.id == mp.household_id) with
    | some h =>
      ⟨mp.id, mp.household_id, mp.plan_name, mp.start_date, mp.end_date,
       mp.status, mp.frequency, mp.created_at, mp.updated_at,
       h.household_name, h.household_type⟩
    | none =>
      ⟨mp.id, mp.household_id, mp.plan_name, mp.start_date, mp.end_date,
       mp.status, mp.frequency, mp.created_at, mp.updated_at, none, none⟩)

/-- `MealPlanPipeline.load_items`: the `meal_plan_items` rows of the plan,
inner-joined to `recipes` (rows with a null or dangling `recipe_id` drop
out), ordered by `meal_date, meal_type`. -/
def load_items (db : RelDB) (meal_plan_id : String) : List MealItemRow :=
  sortBy mealItemLe
    ((db.meal_plan_items.filter (fun r => r.meal_plan_id == meal_plan_id)).filterMap
      (fun r =>
        match r.recipe_id with
        | none => none
        | some rid =>
          match db.recipes.find? (fun rec => rec.id == rid) with
          | none => none
          | some rec =>
            some ⟨r.id, r.meal_date, r.meal_type, r.servings, r.for_member_ids,
                  r.estimated_cost, r.calories_per_serving, r.status, r.rating,
                  r.notes, r.created_at, rid, rec.title⟩))

end MealPlanPipeline

namespace ShoppingListPipeline

/-- `ShoppingListPipeline.load_shopping_list`: the `shopping_lists` row with
the given id, left-joined to `households` and `vendors`.  Because the select
list exposes `v.id AS vendor_id`, the returned `vendor_id` is null whenever
the vendor row is missing. -/
def load_shopping_list (db : RelDB) (list_id : String) : Option ShoppingListRow :=
  (db.shopping_lists.find? (fun sl => sl.id == list_id)).map (fun sl =>
    let h : Option HouseholdsTableRow := db.households.find? (fun h => h.id == sl.household_id)
    let v : Option VendorsTableRow :=
      match sl.vendor_id with
      | none => none
      | some vid => db.vendors.find? (fun v => v.id == vid)
    ⟨sl.id, sl.household_id, sl.list_name, sl.total_estimated_cost, sl.status,
     sl.created_at, sl.updated_at,
     (h.map (fun x => x.household_name)).join, (h.map (fun x => x.household_type)).join,
     v.map (fun x => x.id), (v.map (fun x => x.name)).join⟩)

/-- `ShoppingListPipeline.load_items`: the `shopping_list_items` rows of the
list, left-joined to `products` and `ingredients`; the exposed
`product_id` / `ingredient_id` come from the joined rows (`p.id`, `i.id`), so
they are null when the referenced row is missing. -/
def load_items (db : RelDB) (list_id : String) : List SLItemRow :=
  (db.shopping_list_items.filter (fun r => r.shopping_list_id == list_id)).map
    (fun r =>
      let p : Option ProductsTableRow :=
        match r.product_id with
        | none => none
        | some pid => db.products.find? (fun x => x.id == pid)
      let i : Option IngredientsTableRow :=
        match r.ingredient_id with
        | none => none
        | some iid => db.ingredients.find? (fun x => x.id == iid)
      ⟨r.id, r.item_name, r.quantity, r.unit, r.category, r.estimated_price,
       r.actual_price, r.is_purchased, r.notes, r.created_at,
       p.map (fun x => x.id), (p.map (fun x => x.name)).join,
       i.map (fun x => x.id), (i.map (fun x => x.name)).join,
       r.substituted_product_id⟩)

/-- `ShoppingListPipeline.load_meal_plan_id`: the list's `meal_plan_id` when
the row exists and the value is truthy (Python treats both `None` and the
empty string as falsy in `row.get("meal_plan_id")`). -/
def load_meal_plan_id (db : RelDB) (list_id : String) : Option String :=
  match db.shopping_lists.find? (fun sl => sl.id == list_id) with
  | none => none
  | some sl =>
    match sl.meal_plan_id with
    | none => none
    | some m => if m = "" then none else some m

end ShoppingListPipeline

/-! ## Outbox events and the worker loop -/

/-- Python `str.upper()` on the ASCII op codes used by the outbox
(`CREATE` / `UPDATE` / `DELETE` and their lowercase forms). -/
def pyUpper (s : String) : String := ⟨s.data.map Char.toUpper⟩

/-- An outbox change event, as routed by the worker. -/
structure OutboxEvent where
  id : Nat
  aggregate_type : String
  aggregate_id : String
  op : String
deriving DecidableEq, Repr

/-- `MealPlanPipeline.handle_event`: load the snapshot; when it is missing run
the delete Cypher for a `DELETE` op and otherwise just log and return; when
it is present load the items and run the upsert Cypher. -/
def MealPlanPipeline.handle_event (db : RelDB) (event : OutboxEvent)
    (g : Graph) : Graph :=
  match MealPlanPipeline.load_meal_plan db event.aggregate_id with
  | none =>
    if pyUpper event.op = "DELETE" then deleteMealPlan g event.aggregate_id
    else g
  | some meal_plan =>
    upsertMealPlan g meal_plan (MealPlanPipeline.load_items db event.aggregate_id)

/-- `ShoppingListPipeline.handle_event`: load the snapshot; when it is missing
run the delete Cypher for a `DELETE` op and otherwise just log and return;
when it is present load the items and the optional `meal_plan_id` and run
the upsert Cypher. -/
def ShoppingListPipeline.handle_event (db : RelDB) (event : OutboxEvent)
    (g : Graph) : Graph :=
  match ShoppingListPipeline.load_shopping_list db event.aggregate_id with
  | none =>
    if pyUpper event.op = "DELETE" then deleteShoppingList g event.aggregate_id
    else g
  | some shopping_list =>
    upsertShoppingList g shopping_list
      (ShoppingListPipeline.load_items db event.aggregate_id)
      (ShoppingListPipeline.load_meal_plan_id db event.aggregate_id)

/-- Bookkeeping status of an outbox row. -/
inductive OutboxStatus where
  | pending
  | processed
  | failed
deriving DecidableEq, Repr

/-- The bookkeeping columns of an outbox row. -/
structure OutboxRow where
  status : OutboxStatus
  attempts : Nat
  last_error : Option String
deriving DecidableEq, Repr

/-- The outbox store's bookkeeping state, keyed by event id. -/
abbrev OutboxState := Nat → OutboxRow

/-- Modelled from the spec: `mark_processed` (from
`src.adapters.queue.outbox`, not under `src/`) records a successful handling
attempt by setting the event's status to `processed`. -/
def mark_processed (st : OutboxState) (event_id : Nat) : OutboxState :=
  fun x => if x = event_id then { st x with status := .processed } else st x

/-- Modelled from the spec: `mark_failed` (from `src.adapters.queue.outbox`,
not under `src/`) records a failed handling attempt by setting the event's
status to `failed`, incrementing `attempts` and storing the error text. -/
def mark_failed (st : OutboxState) (event_id : Nat) (err : String) : OutboxState :=
  fun x =>
    if x = event_id then
      { status := .failed, attempts := (st x).attempts + 1, last_error := some err }
    else st x

/-- Is the event's `aggregate_type` wired to a pipeline in `process_batch`? -/
def recognizedType (t : String) : Prop :=
  t = "meal_plan" ∨ t = "shopping_list"

instance (t : String) : Decidable (recognizedType t) := by
  unfold recognizedType
  infer_instance

/-- The outcome the dispatched pipeline's `handle` produces for an event:
`.ok` for a successful handling, `.error msg` when it raises. -/
abbrev HandleFn := OutboxEvent → Except String Unit

/-- `process_batch` from `src/workers/runner.py`.  The pipelines' `handle`
calls and the two bookkeeping calls are collaborator calls that can raise;
they are passed in as outcome oracles (`mh`/`sh` for the two pipelines,
`mpFail`/`mfFail` giving the error a `mark_processed` / `mark_failed` call
raises for a given event id, `none` meaning the call succeeds).  For each
event: route on `aggregate_type` (unrecognized types are logged and
skipped); on a successful `handle` call `mark_processed`; any exception from
`handle` or `mark_processed` is caught and answered with `mark_failed`; an
exception from `mark_failed` itself is not caught and aborts the batch. -/
def process_batch (mh sh : HandleFn) (mpFail mfFail : Nat → Option String) :
    List OutboxEvent → OutboxState → Except String OutboxState
  | [], st => .ok st
  | event :: rest, st =>
    if recognizedType event.aggregate_type then
      let hres : Except String Unit :=
        if event.aggregate_type = "meal_plan" then mh event else sh event
      match hres with
      | .ok _ =>
        match mpFail event.id with
        | none => process_batch mh sh mpFail mfFail rest (mark_processed st event.id)
        | some exc =>
          match mfFail event.id with
          | none => process_batch mh sh mpFail mfFail rest (mark_failed st event.id exc)
          | some exc2 => .error exc2
      | .error exc =>
        match mfFail event.id with
        | none => process_batch mh sh mpFail mfFail rest (mark_failed st event.id exc)
        | some exc2 => .error exc2
    else
      process_batch mh sh mpFail mfFail rest st

/-! ## Basic lemmas about the graph primitives -/

/-- The relational store with every watched table empty. -/
def emptyDB : RelDB := ⟨[], [], [], [], [], [], [], [], []⟩

/-- A meal plan `m1` with one exclusively-owned child item `i1` (the only
edge in the graph is the `HAS_ITEM` edge from `m1` to `i1`). -/
def gDel : Graph :=
  { Graph.empty with
    mealPlans := upd Graph.empty.mealPlans "m1" ⟨some "Week", none, none, none, none, none, none⟩,
    mealPlanItems := upd Graph.empty.mealPlanItems "i1"
      ⟨none, none, none, none, none, none, none, none, none, none⟩,
    edges := fun e => e == mpHasItemE "m1" "i1" }

/-- The `handle` call `process_batch` dispatches for a recognized event:
the `meal_plan` branch is checked first, otherwise the shopping pipeline. -/
def handleOf (mh sh : HandleFn) (ev : OutboxEvent) : Except String Unit :=
  if ev.aggregate_type = "meal_plan" then mh ev else sh ev

/-- The bookkeeping `process_batch` performs for one event when the
bookkeeping calls themselves succeed. -/
def batchStep (mh sh : HandleFn) (st : OutboxState) (ev : OutboxEvent) :
    OutboxState :=
  if recognizedType ev.aggregate_type then
    match handleOf mh sh ev with
    | .ok _ => mark_processed st ev.id
    | .error e => mark_failed st ev.id e
  else st

/-- The outbox state after a whole batch, when bookkeeping succeeds. -/
def finalState (mh sh : HandleFn) (events : List OutboxEvent)
    (st : OutboxState) : OutboxState :=
  events.foldl (batchStep mh sh) st

/-- What one event's bookkeeping does to its own outbox row. -/
def rowOutcome (mh sh : HandleFn) (ev : OutboxEvent) (r : OutboxRow) :
    OutboxRow :=
  if recognizedType ev.aggregate_type then
    match handleOf mh sh ev with
    | .ok _ => { r with status := .processed }
    | .error e => ⟨.failed, r.attempts + 1, some e⟩
  else r

/-- The meal-plan handler outcome used in the worker-loop witnesses: the
event with id 2 raises, every other event succeeds. -/
def mhW : HandleFn := fun ev => if ev.id = 2 then .error "boom" else .ok ()

/-- The shopping-list handler outcome used in the worker-loop witnesses. -/
def shW : HandleFn := fun _ => .ok ()

/-- An all-pending initial outbox state. -/
def stP : OutboxState := fun _ => ⟨.pending, 0, none⟩

/-- A three-event batch whose middle event will raise. -/
def evsW : List OutboxEvent :=
  [⟨1, "meal_plan", "a", "UPDATE"⟩, ⟨2, "meal_plan", "b", "UPDATE"⟩,
   ⟨3, "shopping_list", "c", "UPDATE"⟩]

/-- A single recognized event for the propagation counterexample. -/
def evC6 : OutboxEvent := ⟨7, "meal_plan", "mp-9", "UPDATE"⟩

/-- A batch holding one recognized and one unrecognized event. -/
def evsW2 : List OutboxEvent :=
  [⟨1, "meal_plan", "a", "UPDATE"⟩, ⟨2, "recipe", "r", "UPDATE"⟩]

/-- A shopping-list snapshot row with no vendor. -/
def rowNoVendor : ShoppingListRow :=
  ⟨"sl1", "h1", some "Groceries", some "42", some "open", some "t1", some "t2",
   some "Fam", some "family", none, none⟩

/-- The effect of one shopping item on the `Product` table: the
`USES_PRODUCT` clause. -/
def prodStep (m : NodeMap ProductProps) (it : SLItemRow) : NodeMap ProductProps :=
  match it.product_id with
  | none => m
  | some pid => mergeProduct m pid it.product_name

/-- The effect of one shopping item on the `Product` table: the
`SUBSTITUTE_PRODUCT` clause. -/
def subStep (m : NodeMap ProductProps) (it : SLItemRow) : NodeMap ProductProps :=
  match it.substituted_product_id with
  | none => m
  | some spid => ensureProduct m spid

/-- The effect of one shopping item on the `Ingredient` table. -/
def ingStep (m : NodeMap IngredientProps) (it : SLItemRow) :
    NodeMap IngredientProps :=
  match it.ingredient_id with
  | none => m
  | some iid => mergeIngredient m iid it.ingredient_name

/-- A graph holding one recipe with a non-null title. -/
def gW9 : Graph :=
  { Graph.empty with recipes := upd Graph.empty.recipes "r1" ⟨some "Pie"⟩ }

/-- A meal-plan snapshot row for the C9 witness. -/
def pW9 : MealPlanRow :=
  ⟨"mp1", "h1", none, none, none, none, none, none, none, none, none⟩

/-- A meal-plan item whose snapshot recipe name is null. -/
def itW9 : MealItemRow :=
  ⟨"i1", none, none, none, none, none, none, none, none, none, none, "r1", none⟩

/-- The relational store for the C10 witness: one meal-plan item row with a
resolvable `recipe_id` and one with a null `recipe_id`. -/
def dbW : RelDB :=
  { meal_plans := [], households := [],
    meal_plan_items :=
      [⟨"i1", "mp1", some "r1", some "2024-01-01", some "dinner", none, none,
        none, none, none, none, none, none⟩,
       ⟨"i2", "mp1", none, some "2024-01-02", some "lunch", none, none,
        none, none, none, none, none, none⟩],
    recipes := [⟨"r1", some "Pasta"⟩],
    shopping_lists := [], vendors := [], shopping_list_items := [],
    products := [], ingredients := [] }

/-- The snapshot row `load_items` produces for `i1` in `dbW`. -/
def itW10 : MealItemRow :=
  ⟨"i1", some "2024-01-01", some "dinner", none, none, none, none, none,
   none, none, none, "r1", some "Pasta"⟩

/-- The scenario's shopping-list snapshot row: `vendor_id` is null. -/
def rowC5 : ShoppingListRow :=
  ⟨"sl1", "h1", some "Groceries", some "42", some "open", some "t1", some "t2",
   some "Fam", some "family", none, none⟩

/-- Scenario item 1: null `product_id`, no ingredient, no substitute. -/
def i1C5 : SLItemRow :=
  ⟨"i1", some "Milk", none, none, none, none, none, none, none, none,
   none, none, none, none, none⟩

/-- Scenario item 2: non-null `ingredient_id` `gA`. -/
def i2C5 : SLItemRow :=
  ⟨"i2", some "Salt", none, none, none, none, none, none, none, none,
   none, none, some "gA", some "SaltIng", none⟩

/-- Scenario item 3: non-null `ingredient_id` `gB`. -/
def i3C5 : SLItemRow :=
  ⟨"i3", some "Pepper", none, none, none, none, none, none, none, none,
   none, none, some "gB", some "PepperIng", none⟩

/-- The scenario's three item rows. -/
def itemsC5 : List SLItemRow := [i1C5, i2C5, i3C5]

/-- The initial graph for the scenario: the target `MealPlan` node `mp1`
already exists. -/
def gC5 : Graph :=
  { Graph.empty with
    mealPlans := upd Graph.empty.mealPlans "mp1"
      ⟨none, none, none, none, none, none, none⟩ }

/-- The meal-plan snapshot for the idempotence counterexample. -/
def pCX : MealPlanRow :=
  ⟨"mp1", "h1", none, none, none, none, none, none, none, none, none⟩

/-- A snapshot item whose id also exists in the graph under another plan. -/
def itCX : MealItemRow :=
  ⟨"x", none, none, none, none, none, none, none, none, none, none, "r1", none⟩

/-- The initial graph for the counterexample: item `x` currently belongs to
meal plan `mp2` (it was reparented to `mp1` in the relational store after
`mp2`'s last sync). -/
def gCX : Graph :=
  { Graph.empty with
    mealPlans := upd Graph.empty.mealPlans "mp2"
      ⟨none, none, none, none, none, none, none⟩,
    mealPlanItems := upd Graph.empty.mealPlanItems "x"
      ⟨none, none, none, none, none, none, none, none, none, none⟩,
    edges := fun e => e == mpHasItemE "mp2" "x" }

/-- The title of an optional recipe node (a missing node reads as null). -/
def titleOpt : Option RecipeProps → Option String
  | some r => r.title
  | none => none

/-- The evolution of one recipe node's value through the item fold. -/
def recipeAfter (x : String) : List MealItemRow → Option RecipeProps → Option RecipeProps
  | [], cur => cur
  | it :: rest, cur =>
    recipeAfter x rest
      (if it.recipe_id = x then some ⟨coalesce it.recipe_name (titleOpt cur)⟩ else cur)

/-- The last non-null `recipe_name` an item with `recipe_id = x` supplies. -/
def lastTitle (x : String) : List MealItemRow → Option String
  | [] => none
  | it :: rest =>
    coalesce (lastTitle x rest) (if it.recipe_id = x then it.recipe_name else none)

/-- Does any snapshot item reference recipe `x`? -/
def hasRecipeRel (x : String) (items : List MealItemRow) : Bool :=
  items.any (fun it => it.recipe_id == x)

/-- The last snapshot item carrying id `x` (the one whose `SET` wins). -/
def lastItemWith (x : String) : List MealItemRow → Option MealItemRow
  | [] => none
  | it :: rest =>
    match lastItemWith x rest with
    | some it' => some it'
    | none => if it.id = x then some it else none

/-- Does any snapshot item carry id `x`? -/
def hasItemId (x : String) (items : List MealItemRow) : Bool :=
  items.any (fun it => it.id == x)

/-- The edges the meal-plan item fold adds. -/
def mpAdded (pid : String) (items : List MealItemRow) (e : Edge) : Bool :=
  items.any (fun it => e == mpHasItemE pid it.id || e == usesRecipeE it.id it.recipe_id)

/-- Ownership precondition for idempotence: every edge of the current graph
incident to a `MealPlanItem` node whose id occurs in the snapshot belongs to
this plan's child collection (the item has not been reparented or left with
foreign edges since the last sync of this plan). -/
def mpOwned (g : Graph) (pid : String) (items : List MealItemRow) : Prop :=
  ∀ it ∈ items, ∀ e : Edge, g.edges e = true →
    ((e.srcLabel = "MealPlanItem" ∧ e.srcId = it.id) ∨
     (e.dstLabel = "MealPlanItem" ∧ e.dstId = it.id)) →
    g.edges (mpHasItemE pid it.id) = true

/-- The name of an optional product node (a missing node reads as null). -/
def nameOptP : Option ProductProps → Option String
  | some r => r.name
  | none => none

/-- The name of an optional ingredient node. -/
def nameOptI : Option IngredientProps → Option String
  | some r => r.name
  | none => none

/-- The effect of one shopping item on product `x`'s node value: the
`USES_PRODUCT` coalesce merge, then the `SUBSTITUTE_PRODUCT` bare merge. -/
def prodItemStep (x : String) (it : SLItemRow) (cur : Option ProductProps) :
    Option ProductProps :=
  let c1 := if it.product_id = some x then
    some ⟨coalesce it.product_name (nameOptP cur)⟩ else cur
  if it.substituted_product_id = some x then some (c1.getD ⟨none⟩) else c1

/-- The evolution of product `x`'s node value through the item fold. -/
def prodAfter (x : String) : List SLItemRow → Option ProductProps → Option ProductProps
  | [], cur => cur
  | it :: rest, cur => prodAfter x rest (prodItemStep x it cur)

/-- The last non-null `product_name` an item referencing product `x` supplies. -/
def lastPName (x : String) : List SLItemRow → Option String
  | [] => none
  | it :: rest =>
    coalesce (lastPName x rest) (if it.product_id = some x then it.product_name else none)

/-- Does any snapshot item reference product `x` (as product or substitute)? -/
def prodTouched (x : String) (items : List SLItemRow) : Bool :=
  items.any (fun it => it.product_id == some x || it.substituted_product_id == some x)

/-- The evolution of ingredient `x`'s node value through the item fold. -/
def ingAfter (x : String) : List SLItemRow → Option IngredientProps → Option IngredientProps
  | [], cur => cur
  | it :: rest, cur =>
    ingAfter x rest
      (if it.ingredient_id = some x then
        some ⟨coalesce it.ingredient_name (nameOptI cur)⟩ else cur)

/-- The last non-null `ingredient_name` an item referencing `x` supplies. -/
def lastIName (x : String) : List SLItemRow → Option String
  | [] => none
  | it :: rest =>
    coalesce (lastIName x rest) (if it.ingredient_id = some x then it.ingredient_name else none)

/-- Does any snapshot item reference ingredient `x`? -/
def ingTouched (x : String) (items : List SLItemRow) : Bool :=
  items.any (fun it => it.ingredient_id == some x)

/-- The last snapshot item carrying id `x`. -/
def lastSLItemWith (x : String) : List SLItemRow → Option SLItemRow
  | [] => none
  | it :: rest =>
    match lastSLItemWith x rest with
    | some it' => some it'
    | none => if it.id = x then some it else none

/-- Does any snapshot item carry id `x`? -/
def hasSLItemId (x : String) (items : List SLItemRow) : Bool :=
  items.any (fun it => it.id == x)

/-- The edges one shopping item's merge adds, in the nesting order of the
Cypher clauses. -/
def slItemAdded (slId : String) (it : SLItemRow) (e : Edge) : Bool :=
  (match it.substituted_product_id with
   | some spid => e == substituteProductE it.id spid
   | none => false) ||
  (match it.ingredient_id with
   | some iid => e == usesIngredientE it.id iid
   | none => false) ||
  (match it.product_id with
   | some pid => e == usesProductE it.id pid
   | none => false) ||
  e == slHasItemE slId it.id

/-- The edges the shopping item fold adds. -/
def slAdded (slId : String) (items : List SLItemRow) (e : Edge) : Bool :=
  items.any (fun it => slItemAdded slId it e)

/-- The edge set after the household/list/vendor stages. -/
def slBaseEdges (g0 : Graph) (row : ShoppingListRow) (e : Edge) : Bool :=
  match row.vendor_id with
  | some v =>
    if e = targetsVendorE row.id v then true
    else if e = hasShoppingListE row.household_id row.id then true else g0.edges e
  | none =>
    if e = hasShoppingListE row.household_id row.id then true else g0.edges e

/-- The edge set after every stage but the meal-plan link. -/
def slPreEdges (g0 : Graph) (row : ShoppingListRow) (items : List SLItemRow)
    (e : Edge) : Bool :=
  slAdded row.id items e ||
    (if touchesSLI (fun i => g0.edges (slHasItemE row.id i)) e then false
     else slBaseEdges g0 row e)

/-- Ownership: every edge of the graph that touches a `ShoppingListItem` node
whose id is one of the snapshot item ids is accounted for by this list: that
item is already a `HAS_ITEM` child of this list in the graph. -/
def slOwned (g : Graph) (slId : String) (items : List SLItemRow) : Prop :=
  ∀ it ∈ items, ∀ e : Edge, g.edges e = true →
    ((e.srcLabel = "ShoppingListItem" ∧ e.srcId = it.id) ∨
     (e.dstLabel = "ShoppingListItem" ∧ e.dstId = it.id)) →
    g.edges (slHasItemE slId it.id) = true

/-- A fresh meal-plan row for exercising idempotence on the empty graph. -/
def pW1 : MealPlanRow :=
  ⟨"mpA", "hA", some "week", none, none, none, none, none, none, some "fam", none⟩

/-- A fresh shopping-list row for exercising idempotence on the empty graph. -/
def rowW1 : ShoppingListRow :=
  ⟨"slA", "hA", some "list", none, none, none, none, some "fam", none, none, none⟩

/-- A meal item row for the idempotence witness. -/
def itW1 : MealItemRow :=
  ⟨"miA", none, none, none, none, none, none, none, none, none, none, "rA", some "Stew"⟩

/-- A shopping item row for the idempotence witness. -/
def slitW1 : SLItemRow :=
  ⟨"siA", some "Milk", none, none, none, none, none, none, none, none,
   some "prA", some "Milk", none, none, none⟩

theorem upd_self {α : Type} (m : NodeMap α) (k : String) (v : α) :
    upd m k v k = some v := by
  simp [upd]

theorem upd_of_ne {α : Type} (m : NodeMap α) (k : String) (v : α) (x : String)
    (h : x ≠ k) : upd m k v x = m x := by
  simp [upd, h]

theorem upd_eq_self {α : Type} (m : NodeMap α) (k : String) (v : α)
    (h : m k = some v) : upd m k v = m := by
  funext x
  by_cases hx : x = k
  · subst hx
    simp [upd, h]
  · simp [upd, hx]

theorem addEdge_edges (g : Graph) (e e' : Edge) :
    (addEdge g e).edges e' = if e' = e then true else g.edges e' := by
  rfl

theorem addEdge_of_present (g : Graph) (e : Edge) (h : g.edges e = true) :
    addEdge g e = g := by
  have hfun : (fun x => if x = e then true else g.edges x) = g.edges := by
    funext x
    by_cases hx : x = e
    · subst hx
      simp [h]
    · simp [hx]
  unfold addEdge
  rw [hfun]

/-! ## C4: missing relational row with a non-DELETE op is a no-op -/

/-- C4: for every event whose op is not DELETE and whose aggregate id has no
matching relational row, `handle_event` completes without raising and
performs no graph mutation — it returns the graph unchanged (both
pipelines). -/
theorem handle_event_missing_row_noop :
    ∀ (db : RelDB) (event : OutboxEvent) (g : Graph),
      (MealPlanPipeline.load_meal_plan db event.aggregate_id = none →
        pyUpper event.op ≠ "DELETE" →
        MealPlanPipeline.handle_event db event g = g) ∧
      (ShoppingListPipeline.load_shopping_list db event.aggregate_id = none →
        pyUpper event.op ≠ "DELETE" →
        ShoppingListPipeline.handle_event db event g = g) := by
  intro db event g
  constructor
  · intro h hop
    simp [MealPlanPipeline.handle_event, h, hop]
  · intro h hop
    simp [ShoppingListPipeline.handle_event, h, hop]

theorem handle_event_missing_row_noop_witness :
    MealPlanPipeline.load_meal_plan emptyDB "mp-1" = none ∧
    pyUpper "UPDATE" ≠ "DELETE" ∧
    MealPlanPipeline.handle_event emptyDB ⟨1, "meal_plan", "mp-1", "UPDATE"⟩
      Graph.empty = Graph.empty := by
  refine ⟨rfl, by decide, ?_⟩
  exact (handle_event_missing_row_noop emptyDB ⟨1, "meal_plan", "mp-1", "UPDATE"⟩
    Graph.empty).1 rfl (by decide)

/-! ## C3: delete handling

`_delete_cypher` is `MATCH (root {id: $id}) DETACH DELETE root`: it removes
the root node and the relationships incident to it, but `DETACH DELETE` does
not cascade to the child item nodes — they survive as orphans. -/

/-- C3 counterexample: deleting meal plan `m1` (snapshot absent, DELETE op)
removes the root node and its `HAS_ITEM` edge, but the exclusively-owned
child node `i1` is still in the graph afterwards — the claimed cascading
removal of the child collection does not happen. -/
theorem delete_cascade_counterexample :
    (deleteMealPlan gDel "m1").mealPlans "m1" = none ∧
    (deleteMealPlan gDel "m1").edges (mpHasItemE "m1" "i1") = false ∧
    (deleteMealPlan gDel "m1").mealPlanItems "i1" =
      some ⟨none, none, none, none, none, none, none, none, none, none⟩ := by
  refine ⟨?_, ?_, ?_⟩ <;> decide

/-- C3 amended: the delete Cypher removes the root aggregate node and every
relationship incident to it, and touches nothing else: child item nodes are
left in the graph as orphans (only their ownership edge is removed), and
shared nodes (Household, Recipe, Product, Ingredient, Vendor, the other
aggregate's nodes) are never deleted.  Both pipelines. -/
theorem delete_amended :
    ∀ (g : Graph) (aid : String),
      ((deleteMealPlan g aid).mealPlans aid = none ∧
       (deleteMealPlan g aid).mealPlanItems = g.mealPlanItems ∧
       (deleteMealPlan g aid).households = g.households ∧
       (deleteMealPlan g aid).recipes = g.recipes ∧
       (deleteMealPlan g aid).products = g.products ∧
       (deleteMealPlan g aid).ingredients = g.ingredients ∧
       (deleteMealPlan g aid).vendors = g.vendors ∧
       (deleteMealPlan g aid).shoppingLists = g.shoppingLists ∧
       (deleteMealPlan g aid).shoppingListItems = g.shoppingListItems ∧
       (∀ e, touchesMPNode aid e = false →
         (deleteMealPlan g aid).edges e = g.edges e) ∧
       (∀ e, touchesMPNode aid e = true → g.mealPlans aid ≠ none →
         (deleteMealPlan g aid).edges e = false)) ∧
      ((deleteShoppingList g aid).shoppingLists aid = none ∧
       (deleteShoppingList g aid).shoppingListItems = g.shoppingListItems ∧
       (deleteShoppingList g aid).households = g.households ∧
       (deleteShoppingList g aid).recipes = g.recipes ∧
       (deleteShoppingList g aid).products = g.products ∧
       (deleteShoppingList g aid).ingredients = g.ingredients ∧
       (deleteShoppingList g aid).vendors = g.vendors ∧
       (deleteShoppingList g aid).mealPlans = g.mealPlans ∧
       (deleteShoppingList g aid).mealPlanItems = g.mealPlanItems ∧
       (∀ e, touchesSLNode aid e = false →
         (deleteShoppingList g aid).edges e = g.edges e) ∧
       (∀ e, touchesSLNode aid e = true → g.shoppingLists aid ≠ none →
         (deleteShoppingList g aid).edges e = false)) := by
  intro g aid
  constructor
  · unfold deleteMealPlan
    cases hmp : g.mealPlans aid with
    | none =>
      refine ⟨hmp, rfl, rfl, rfl, rfl, rfl, rfl, rfl, rfl, fun e _ => rfl, ?_⟩
      intro e _ hne
      exact absurd rfl hne
    | some v =>
      refine ⟨?_, rfl, rfl, rfl, rfl, rfl, rfl, rfl, rfl, ?_, ?_⟩
      · simp
      · intro e he
        simp [he]
      · intro e he _
        simp [he]
  · unfold deleteShoppingList
    cases hsl : g.shoppingLists aid with
    | none =>
      refine ⟨hsl, rfl, rfl, rfl, rfl, rfl, rfl, rfl, rfl, fun e _ => rfl, ?_⟩
      intro e _ hne
      exact absurd rfl hne
    | some v =>
      refine ⟨?_, rfl, rfl, rfl, rfl, rfl, rfl, rfl, rfl, ?_, ?_⟩
      · simp
      · intro e he
        simp [he]
      · intro e he _
        simp [he]

theorem delete_amended_witness :
    touchesMPNode "m1" (mpHasItemE "m1" "i1") = true ∧
    gDel.mealPlans "m1" ≠ none ∧
    (deleteMealPlan gDel "m1").edges (mpHasItemE "m1" "i1") = false := by
  obtain ⟨-, -, -, -, -, -, -, -, -, -, hE⟩ := (delete_amended gDel "m1").1
  exact ⟨by decide, by decide, hE (mpHasItemE "m1" "i1") (by decide) (by decide)⟩

/-! ## Worker-loop characterization -/

theorem mark_processed_at (st : OutboxState) (i : Nat) :
    mark_processed st i i = { st i with status := .processed } := by
  simp [mark_processed]

theorem mark_processed_of_ne (st : OutboxState) (i j : Nat) (h : j ≠ i) :
    mark_processed st i j = st j := by
  simp [mark_processed, h]

theorem mark_failed_at (st : OutboxState) (i : Nat) (e : String) :
    mark_failed st i e i = ⟨.failed, (st i).attempts + 1, some e⟩ := by
  simp [mark_failed]

theorem mark_failed_of_ne (st : OutboxState) (i j : Nat) (e : String) (h : j ≠ i) :
    mark_failed st i e j = st j := by
  simp [mark_failed, h]

theorem batchStep_at (mh sh : HandleFn) (st : OutboxState) (ev : OutboxEvent) :
    batchStep mh sh st ev ev.id = rowOutcome mh sh ev (st ev.id) := by
  unfold batchStep rowOutcome
  by_cases hr : recognizedType ev.aggregate_type
  · simp only [hr, if_pos]
    cases handleOf mh sh ev with
    | ok u => simp [mark_processed_at]
    | error e => simp [mark_failed_at]
  · simp [hr]

theorem batchStep_of_ne (mh sh : HandleFn) (st : OutboxState) (ev : OutboxEvent)
    (i : Nat) (h : i ≠ ev.id) : batchStep mh sh st ev i = st i := by
  unfold batchStep
  by_cases hr : recognizedType ev.aggregate_type
  · simp only [hr, if_pos]
    cases handleOf mh sh ev with
    | ok u => simp [mark_processed_of_ne _ _ _ h]
    | error e => simp [mark_failed_of_ne _ _ _ _ h]
  · simp [hr]

theorem finalState_frame (mh sh : HandleFn) (events : List OutboxEvent)
    (st : OutboxState) (i : Nat) (h : ∀ ev ∈ events, ev.id ≠ i) :
    finalState mh sh events st i = st i := by
  induction events generalizing st with
  | nil => rfl
  | cons ev rest ih =>
    have h1 : ev.id ≠ i := h ev (List.mem_cons_self ev rest)
    have h2 : ∀ ev' ∈ rest, ev'.id ≠ i := fun ev' hm => h ev' (List.mem_cons_of_mem _ hm)
    calc finalState mh sh (ev :: rest) st i
        = finalState mh sh rest (batchStep mh sh st ev) i := rfl
      _ = batchStep mh sh st ev i := ih _ h2
      _ = st i := batchStep_of_ne mh sh st ev i (Ne.symm h1)

theorem finalState_at (mh sh : HandleFn) (events : List OutboxEvent)
    (st : OutboxState) (ev : OutboxEvent)
    (hnd : (events.map (fun e => e.id)).Nodup) (hm : ev ∈ events) :
    finalState mh sh events st ev.id = rowOutcome mh sh ev (st ev.id) := by
  induction events generalizing st with
  | nil => cases hm
  | cons ev0 rest ih =>
    have hnd' : (rest.map (fun e => e.id)).Nodup := (List.nodup_cons.mp hnd).2
    have hnotin : ev0.id ∉ rest.map (fun e => e.id) := (List.nodup_cons.mp hnd).1
    rcases List.mem_cons.mp hm with heq | hrest
    · subst heq
      have hrest_ne : ∀ ev' ∈ rest, ev'.id ≠ ev.id := by
        intro ev' hmem hne
        exact hnotin (hne ▸ List.mem_map_of_mem (fun e => e.id) hmem)
      calc finalState mh sh (ev :: rest) st ev.id
          = finalState mh sh rest (batchStep mh sh st ev) ev.id := rfl
        _ = batchStep mh sh st ev ev.id := finalState_frame mh sh rest _ ev.id hrest_ne
        _ = rowOutcome mh sh ev (st ev.id) := batchStep_at mh sh st ev
    · have hne : ev.id ≠ ev0.id := by
        intro hne
        exact hnotin (hne ▸ List.mem_map_of_mem (fun e => e.id) hrest)
      calc finalState mh sh (ev0 :: rest) st ev.id
          = finalState mh sh rest (batchStep mh sh st ev0) ev.id := rfl
        _ = rowOutcome mh sh ev (batchStep mh sh st ev0 ev.id) := ih _ hnd' hrest
        _ = rowOutcome mh sh ev (st ev.id) := by
            rw [batchStep_of_ne mh sh st ev0 ev.id hne]

theorem process_batch_cons (mh sh : HandleFn) (mpFail mfFail : Nat → Option String)
    (ev : OutboxEvent) (rest : List OutboxEvent) (st : OutboxState) :
    process_batch mh sh mpFail mfFail (ev :: rest) st =
      (if recognizedType ev.aggregate_type then
        match (if ev.aggregate_type = "meal_plan" then mh ev else sh ev) with
        | .ok _ =>
          match mpFail ev.id with
          | none => process_batch mh sh mpFail mfFail rest (mark_processed st ev.id)
          | some exc =>
            match mfFail ev.id with
            | none => process_batch mh sh mpFail mfFail rest (mark_failed st ev.id exc)
            | some exc2 => .error exc2
        | .error exc =>
          match mfFail ev.id with
          | none => process_batch mh sh mpFail mfFail rest (mark_failed st ev.id exc)
          | some exc2 => .error exc2
      else process_batch mh sh mpFail mfFail rest st) := rfl

theorem process_batch_ok (mh sh : HandleFn) (mpFail mfFail : Nat → Option String)
    (events : List OutboxEvent) (st : OutboxState)
    (h : ∀ ev ∈ events, mpFail ev.id = none ∧ mfFail ev.id = none) :
    process_batch mh sh mpFail mfFail events st =
      .ok (finalState mh sh events st) := by
  induction events generalizing st with
  | nil => rfl
  | cons ev rest ih =>
    have hev := h ev (List.mem_cons_self ev rest)
    have hrest : ∀ ev' ∈ rest, mpFail ev'.id = none ∧ mfFail ev'.id = none :=
      fun ev' hm => h ev' (List.mem_cons_of_mem _ hm)
    have hfs : finalState mh sh (ev :: rest) st =
        finalState mh sh rest (batchStep mh sh st ev) := rfl
    rw [process_batch_cons, hfs]
    by_cases hr : recognizedType ev.aggregate_type
    · rw [if_pos hr]
      cases hh : (if ev.aggregate_type = "meal_plan" then mh ev else sh ev) with
      | ok u =>
        have hbs : batchStep mh sh st ev = mark_processed st ev.id := by
          unfold batchStep handleOf
          rw [if_pos hr, hh]
        rw [hev.1, hbs]
        exact ih _ hrest
      | error e =>
        have hbs : batchStep mh sh st ev = mark_failed st ev.id e := by
          unfold batchStep handleOf
          rw [if_pos hr, hh]
        rw [hev.2, hbs]
        exact ih _ hrest
    · rw [if_neg hr]
      have hbs : batchStep mh sh st ev = st := by
        unfold batchStep handleOf
        rw [if_neg hr]
      rw [hbs]
      exact ih _ hrest

theorem process_batch_ok_frame (mh sh : HandleFn)
    (mpFail mfFail : Nat → Option String) (events : List OutboxEvent)
    (st st' : OutboxState)
    (hpb : process_batch mh sh mpFail mfFail events st = .ok st') (i : Nat)
    (h : ∀ ev ∈ events, ev.id = i → ¬ recognizedType ev.aggregate_type) :
    st' i = st i := by
  induction events generalizing st with
  | nil =>
    cases hpb
    rfl
  | cons ev rest ih =>
    have hev := h ev (List.mem_cons_self ev rest)
    have hrest : ∀ ev' ∈ rest, ev'.id = i → ¬ recognizedType ev'.aggregate_type :=
      fun ev' hm => h ev' (List.mem_cons_of_mem _ hm)
    rw [process_batch_cons] at hpb
    by_cases hr : recognizedType ev.aggregate_type
    · have hne : ev.id ≠ i := fun hid => hev hid hr
      rw [if_pos hr] at hpb
      cases hh : (if ev.aggregate_type = "meal_plan" then mh ev else sh ev) with
      | ok u =>
        rw [hh] at hpb
        cases hmp : mpFail ev.id with
        | none =>
          rw [hmp] at hpb
          have := ih _ hpb hrest
          rw [this, mark_processed_of_ne st ev.id i (Ne.symm hne)]
        | some exc =>
          rw [hmp] at hpb
          cases hmf : mfFail ev.id with
          | none =>
            rw [hmf] at hpb
            have := ih _ hpb hrest
            rw [this, mark_failed_of_ne st ev.id i exc (Ne.symm hne)]
          | some exc2 =>
            rw [hmf] at hpb
            cases hpb
      | error e =>
        rw [hh] at hpb
        cases hmf : mfFail ev.id with
        | none =>
          rw [hmf] at hpb
          have := ih _ hpb hrest
          rw [this, mark_failed_of_ne st ev.id i e (Ne.symm hne)]
        | some exc2 =>
          rw [hmf] at hpb
          cases hpb
    · rw [if_neg hr] at hpb
      exact ih _ hpb hrest

/-! ## C2: per-event failure isolation in `process_batch` -/

/-- C2: in a batch with pairwise-distinct event ids and working bookkeeping
calls, `process_batch` completes and, independently for each recognized
event, a raising `handle` leaves that event marked failed with the error
text and an incremented attempts counter, while a successful `handle` leaves
it marked processed. -/
theorem process_batch_failure_isolation :
    ∀ (mh sh : HandleFn) (mpFail mfFail : Nat → Option String)
      (events : List OutboxEvent) (st : OutboxState),
      (events.map (fun e => e.id)).Nodup →
      (∀ ev ∈ events, mpFail ev.id = none ∧ mfFail ev.id = none) →
      ∃ st', process_batch mh sh mpFail mfFail events st = .ok st' ∧
        ∀ ev ∈ events, recognizedType ev.aggregate_type →
          (∀ e, handleOf mh sh ev = .error e →
            st' ev.id = ⟨.failed, (st ev.id).attempts + 1, some e⟩) ∧
          (∀ u, handleOf mh sh ev = .ok u →
            st' ev.id = { st ev.id with status := .processed }) := by
  intro mh sh mpFail mfFail events st hnd hmarks
  refine ⟨finalState mh sh events st,
    process_batch_ok mh sh mpFail mfFail events st hmarks, ?_⟩
  intro ev hm hr
  have hat := finalState_at mh sh events st ev hnd hm
  constructor
  · intro e he
    rw [hat]
    unfold rowOutcome
    rw [if_pos hr, he]
  · intro u hu
    rw [hat]
    unfold rowOutcome
    rw [if_pos hr, hu]

theorem process_batch_failure_isolation_witness :
    (evsW.map (fun e => e.id)).Nodup ∧
    (∃ st', process_batch mhW shW (fun _ => none) (fun _ => none) evsW stP = .ok st' ∧
      ∀ ev ∈ evsW, recognizedType ev.aggregate_type →
        (∀ e, handleOf mhW shW ev = .error e →
          st' ev.id = ⟨.failed, (stP ev.id).attempts + 1, some e⟩) ∧
        (∀ u, handleOf mhW shW ev = .ok u →
          st' ev.id = { stP ev.id with status := .processed })) :=
  ⟨by decide,
   process_batch_failure_isolation mhW shW (fun _ => none) (fun _ => none) evsW stP
     (by decide) (fun _ _ => ⟨rfl, rfl⟩)⟩

/-! ## C6: error propagation out of `process_batch` -/

/-- C6 counterexample: when an event's `handle` raises and the `mark_failed`
bookkeeping call itself then raises, the `mark_failed` error escapes
`process_batch` (the `except` block has no inner handler), so the claim that
no error from bookkeeping propagates out of the batch step is false. -/
theorem markfailed_error_propagates_counterexample :
    process_batch (fun _ => .error "handler boom") (fun _ => .ok ())
      (fun _ => none) (fun _ => some "outbox down") [evC6] stP =
      .error "outbox down" := rfl

/-- C6 amended: no error from an event's `handle` or from a `mark_processed`
call propagates out of `process_batch`; only an error raised by a
`mark_failed` call itself can escape.  When `mark_failed` succeeds for every
event of the batch, `process_batch` returns normally whatever the handlers
and `mark_processed` do. -/
theorem process_batch_no_propagation_amended :
    ∀ (mh sh : HandleFn) (mpFail mfFail : Nat → Option String)
      (events : List OutboxEvent) (st : OutboxState),
      (∀ ev ∈ events, mfFail ev.id = none) →
      ∃ st', process_batch mh sh mpFail mfFail events st = .ok st' := by
  intro mh sh mpFail mfFail events
  induction events with
  | nil => exact fun st _ => ⟨st, rfl⟩
  | cons ev rest ih =>
    intro st h
    have hev := h ev (List.mem_cons_self ev rest)
    have hrest : ∀ ev' ∈ rest, mfFail ev'.id = none :=
      fun ev' hm => h ev' (List.mem_cons_of_mem _ hm)
    rw [process_batch_cons]
    by_cases hr : recognizedType ev.aggregate_type
    · rw [if_pos hr]
      cases hh : (if ev.aggregate_type = "meal_plan" then mh ev else sh ev) with
      | ok u =>
        cases hmp : mpFail ev.id with
        | none => exact ih _ hrest
        | some exc =>
          rw [hev]
          exact ih _ hrest
      | error e =>
        rw [hev]
        exact ih _ hrest
    · rw [if_neg hr]
      exact ih _ hrest

theorem process_batch_no_propagation_amended_witness :
    ∃ st', process_batch (fun _ => .error "handler boom") (fun _ => .ok ())
      (fun _ => some "mark-processed down") (fun _ => none) [evC6] stP = .ok st' :=
  process_batch_no_propagation_amended (fun _ => .error "handler boom")
    (fun _ => .ok ()) (fun _ => some "mark-processed down") (fun _ => none)
    [evC6] stP (fun _ _ => rfl)

/-! ## C7: unrecognized aggregate types are left untouched -/

/-- C7: when `process_batch` completes on a batch with pairwise-distinct
event ids, an event whose `aggregate_type` is neither `meal_plan` nor
`shopping_list` has its outbox row left exactly as it was: not marked
processed, not marked failed, attempts not incremented; in particular a
pending event stays pending. -/
theorem unrecognized_event_untouched :
    ∀ (mh sh : HandleFn) (mpFail mfFail : Nat → Option String)
      (events : List OutboxEvent) (st st' : OutboxState) (ev : OutboxEvent),
      process_batch mh sh mpFail mfFail events st = .ok st' →
      ev ∈ events →
      ev.aggregate_type ≠ "meal_plan" →
      ev.aggregate_type ≠ "shopping_list" →
      (events.map (fun e => e.id)).Nodup →
      st' ev.id = st ev.id ∧
        ((st ev.id).status = .pending → (st' ev.id).status = .pending) := by
  intro mh sh mpFail mfFail events st st' ev hpb hm h1 h2 hnd
  have hnr : ¬ recognizedType ev.aggregate_type := by
    intro hr
    rcases hr with h | h
    · exact h1 h
    · exact h2 h
  have heq : st' ev.id = st ev.id := by
    apply process_batch_ok_frame mh sh mpFail mfFail events st st' hpb ev.id
    intro ev' hm' hid
    have hev' : ev' = ev := List.inj_on_of_nodup_map hnd hm' hm hid
    rw [hev']
    exact hnr
  exact ⟨heq, fun hp => by rw [heq]; exact hp⟩

theorem unrecognized_event_untouched_witness :
    process_batch mhW shW (fun _ => none) (fun _ => none) evsW2 stP =
      .ok (finalState mhW shW evsW2 stP) ∧
    finalState mhW shW evsW2 stP 2 = stP 2 := by
  refine ⟨rfl, ?_⟩
  have h := unrecognized_event_untouched mhW shW (fun _ => none) (fun _ => none)
    evsW2 stP (finalState mhW shW evsW2 stP) ⟨2, "recipe", "r", "UPDATE"⟩
    rfl (by decide) (by decide) (by decide) (by decide)
  exact h.1

/-! ## C8: the optional vendor step -/

theorem mergeSLItem_vendors (slId : String) (g : Graph) (it : SLItemRow) :
    (mergeSLItem slId g it).vendors = g.vendors := by
  unfold mergeSLItem
  cases hp : it.product_id <;> cases hi : it.ingredient_id <;>
    cases hs : it.substituted_product_id <;> rfl

theorem mergeSLItem_edges_tv (slId : String) (g : Graph) (it : SLItemRow)
    (lid vid : String) :
    (mergeSLItem slId g it).edges (targetsVendorE lid vid) =
      g.edges (targetsVendorE lid vid) := by
  unfold mergeSLItem
  cases hp : it.product_id <;> cases hi : it.ingredient_id <;>
    cases hs : it.substituted_product_id <;>
    simp [addEdge, targetsVendorE, slHasItemE, usesProductE, usesIngredientE,
      substituteProductE, Edge.mk.injEq]

theorem slFold_vendors (slId : String) (items : List SLItemRow) :
    ∀ g : Graph, (items.foldl (mergeSLItem slId) g).vendors = g.vendors := by
  induction items with
  | nil => intro g; rfl
  | cons it rest ih =>
    intro g
    calc (List.foldl (mergeSLItem slId) g (it :: rest)).vendors
        = (List.foldl (mergeSLItem slId) (mergeSLItem slId g it) rest).vendors := rfl
      _ = (mergeSLItem slId g it).vendors := ih _
      _ = g.vendors := mergeSLItem_vendors slId g it

theorem slFold_edges_tv (slId : String) (items : List SLItemRow)
    (lid vid : String) :
    ∀ g : Graph, (items.foldl (mergeSLItem slId) g).edges (targetsVendorE lid vid) =
      g.edges (targetsVendorE lid vid) := by
  induction items with
  | nil => intro g; rfl
  | cons it rest ih =>
    intro g
    calc (List.foldl (mergeSLItem slId) g (it :: rest)).edges (targetsVendorE lid vid)
        = (List.foldl (mergeSLItem slId) (mergeSLItem slId g it) rest).edges
            (targetsVendorE lid vid) := rfl
      _ = (mergeSLItem slId g it).edges (targetsVendorE lid vid) := ih _
      _ = g.edges (targetsVendorE lid vid) := mergeSLItem_edges_tv slId g it lid vid

theorem clearSL_vendors (g : Graph) (slId : String) :
    (clearShoppingListItems g slId).vendors = g.vendors := rfl

theorem clearSL_edges_tv (g : Graph) (slId lid vid : String) :
    (clearShoppingListItems g slId).edges (targetsVendorE lid vid) =
      g.edges (targetsVendorE lid vid) := by
  simp [clearShoppingListItems, touchesSLI, targetsVendorE]

theorem linkMealPlan_vendors (g : Graph) (m : Option String) (slId : String) :
    (linkMealPlan g m slId).vendors = g.vendors := by
  unfold linkMealPlan
  cases m with
  | none => rfl
  | some mid =>
    cases hm : g.mealPlans mid with
    | none => simp [hm]
    | some v => simp [hm, addEdge]

theorem linkMealPlan_edges_tv (g : Graph) (m : Option String)
    (slId lid vid : String) :
    (linkMealPlan g m slId).edges (targetsVendorE lid vid) =
      g.edges (targetsVendorE lid vid) := by
  unfold linkMealPlan
  cases m with
  | none => rfl
  | some mid =>
    cases hm : g.mealPlans mid with
    | none => simp [hm]
    | some v =>
      simp [hm, addEdge, targetsVendorE, generatesListE, Edge.mk.injEq]

/-- Unfolding of `upsertShoppingList` into its pipeline of stages. -/
theorem upsertShoppingList_def (g : Graph) (row : ShoppingListRow)
    (items : List SLItemRow) (mpid : Option String) :
    upsertShoppingList g row items mpid =
      linkMealPlan
        (items.foldl (mergeSLItem row.id)
          (clearShoppingListItems
            (vendorStep
              (addEdge
                { g with
                  households := upd g.households row.household_id
                    ⟨row.household_name, row.household_type⟩,
                  shoppingLists := upd g.shoppingLists row.id (shoppingListProps row) }
                (hasShoppingListE row.household_id row.id))
              row.id row.vendor_id row.vendor_name)
            row.id))
        mpid row.id := rfl

/-- C8: a shopping-list merge with a null vendor foreign key skips the vendor
step entirely — the `Vendor` node table is untouched (so no null-id
placeholder appears) and every `TARGETS_VENDOR` edge keeps exactly the value
it had before the merge; with a non-null vendor id the vendor node is
upserted (name overwritten with the snapshot's value) and the
`TARGETS_VENDOR` edge from the list is ensured. -/
theorem vendor_step_frame :
    (∀ (g : Graph) (row : ShoppingListRow) (items : List SLItemRow)
       (mpid : Option String),
       row.vendor_id = none →
       (upsertShoppingList g row items mpid).vendors = g.vendors ∧
       ∀ lid vid, (upsertShoppingList g row items mpid).edges (targetsVendorE lid vid) =
         g.edges (targetsVendorE lid vid)) ∧
    (∀ (g : Graph) (row : ShoppingListRow) (items : List SLItemRow)
       (mpid : Option String) (v : String),
       row.vendor_id = some v →
       (upsertShoppingList g row items mpid).vendors v = some ⟨row.vendor_name⟩ ∧
       (upsertShoppingList g row items mpid).edges (targetsVendorE row.id v) = true) := by
  constructor
  · intro g row items mpid hv
    rw [upsertShoppingList_def, hv]
    constructor
    · rw [linkMealPlan_vendors, slFold_vendors, clearSL_vendors]
      rfl
    · intro lid vid
      rw [linkMealPlan_edges_tv, slFold_edges_tv, clearSL_edges_tv]
      simp [vendorStep, addEdge, targetsVendorE, hasShoppingListE, Edge.mk.injEq]
  · intro g row items mpid v hv
    rw [upsertShoppingList_def, hv]
    constructor
    · rw [linkMealPlan_vendors, slFold_vendors, clearSL_vendors]
      simp [vendorStep, addEdge, upd]
    · rw [linkMealPlan_edges_tv, slFold_edges_tv, clearSL_edges_tv]
      simp [vendorStep, addEdge]

theorem vendor_step_frame_witness :
    rowNoVendor.vendor_id = none ∧
    (upsertShoppingList Graph.empty rowNoVendor [] none).vendors =
      Graph.empty.vendors := by
  have h := vendor_step_frame.1 Graph.empty rowNoVendor [] none rfl
  exact ⟨rfl, h.1⟩

/-! ## C9: leaf-entity names are only overwritten with non-null values -/

/-- Unfolding of `upsertMealPlan` into its pipeline of stages. -/
theorem upsertMealPlan_def (g : Graph) (p : MealPlanRow)
    (items : List MealItemRow) :
    upsertMealPlan g p items =
      items.foldl (mergeMealItem p.id)
        (clearMealPlanItems
          (addEdge
            { g with
              households := upd g.households p.household_id
                ⟨p.household_name, p.household_type⟩,
              mealPlans := upd g.mealPlans p.id (mealPlanProps p) }
            (hasMealPlanE p.household_id p.id))
          p.id) := rfl

theorem mergeMealItem_recipes (pid : String) (g : Graph) (it : MealItemRow) :
    (mergeMealItem pid g it).recipes =
      mergeRecipe g.recipes it.recipe_id it.recipe_name := rfl

theorem mergeSLItem_products (slId : String) (g : Graph) (it : SLItemRow) :
    (mergeSLItem slId g it).products = subStep (prodStep g.products it) it := by
  unfold mergeSLItem prodStep subStep
  cases hp : it.product_id <;> cases hi : it.ingredient_id <;>
    cases hs : it.substituted_product_id <;> rfl

theorem mergeSLItem_ingredients (slId : String) (g : Graph) (it : SLItemRow) :
    (mergeSLItem slId g it).ingredients = ingStep g.ingredients it := by
  unfold mergeSLItem ingStep
  cases hp : it.product_id <;> cases hi : it.ingredient_id <;>
    cases hs : it.substituted_product_id <;> rfl

theorem vendorStep_products (g : Graph) (slId : String) (vid vname : Option String) :
    (vendorStep g slId vid vname).products = g.products := by
  unfold vendorStep
  cases vid <;> rfl

theorem vendorStep_ingredients (g : Graph) (slId : String) (vid vname : Option String) :
    (vendorStep g slId vid vname).ingredients = g.ingredients := by
  unfold vendorStep
  cases vid <;> rfl

theorem linkMealPlan_products (g : Graph) (m : Option String) (slId : String) :
    (linkMealPlan g m slId).products = g.products := by
  unfold linkMealPlan
  cases m with
  | none => rfl
  | some mid => cases hm : g.mealPlans mid <;> simp [hm, addEdge]

theorem linkMealPlan_ingredients (g : Graph) (m : Option String) (slId : String) :
    (linkMealPlan g m slId).ingredients = g.ingredients := by
  unfold linkMealPlan
  cases m with
  | none => rfl
  | some mid => cases hm : g.mealPlans mid <;> simp [hm, addEdge]

theorem ensureProduct_preserve (m : NodeMap ProductProps) (spid pid : String)
    (pr : ProductProps) (h : m pid = some pr) :
    ensureProduct m spid pid = some pr := by
  unfold ensureProduct
  cases hm : m spid with
  | some _ => exact h
  | none =>
    have hne : pid ≠ spid := by
      intro he
      rw [he, hm] at h
      cases h
    show upd m spid ⟨none⟩ pid = some pr
    rw [upd_of_ne m spid ⟨none⟩ pid hne]
    exact h

theorem subStep_preserve (m : NodeMap ProductProps) (it : SLItemRow)
    (pid : String) (pr : ProductProps) (h : m pid = some pr) :
    subStep m it pid = some pr := by
  unfold subStep
  cases hs : it.substituted_product_id with
  | none => exact h
  | some spid => exact ensureProduct_preserve m spid pid pr h

/-- Evolution of one recipe node's properties through the meal-plan item
fold: the node stays present, and its title either keeps its old value or
takes a non-null `recipe_name` supplied by one of the snapshot items. -/
theorem mpFold_recipes (pid : String) (items : List MealItemRow) :
    ∀ (g : Graph) (rid : String) (r : RecipeProps), g.recipes rid = some r →
      ∃ r', (items.foldl (mergeMealItem pid) g).recipes rid = some r' ∧
        (r'.title = r.title ∨
          (r'.title ≠ none ∧ ∃ x ∈ items, x.recipe_id = rid ∧ x.recipe_name = r'.title)) := by
  induction items with
  | nil => exact fun g rid r h => ⟨r, h, Or.inl rfl⟩
  | cons it rest ih =>
    intro g rid r h
    by_cases hid : it.recipe_id = rid
    · have hstep : (mergeMealItem pid g it).recipes rid =
          some ⟨coalesce it.recipe_name r.title⟩ := by
        rw [mergeMealItem_recipes]
        simp [mergeRecipe, upd, hid, h]
      obtain ⟨r', hfold, hrel⟩ :=
        ih (mergeMealItem pid g it) rid ⟨coalesce it.recipe_name r.title⟩ hstep
      refine ⟨r', by simpa using hfold, ?_⟩
      rcases hrel with heq | ⟨hne, x, hm', hrid', hname'⟩
      · cases hnm : it.recipe_name with
        | none =>
          left
          rw [heq, hnm]
          rfl
        | some s =>
          have ht : r'.title = some s := by
            rw [heq, hnm]
            rfl
          right
          refine ⟨?_, it, List.mem_cons_self it rest, hid, ?_⟩
          · rw [ht]
            exact Option.some_ne_none s
          · rw [ht, hnm]
      · exact Or.inr ⟨hne, x, List.mem_cons_of_mem _ hm', hrid', hname'⟩
    · have hstep : (mergeMealItem pid g it).recipes rid = some r := by
        rw [mergeMealItem_recipes]
        simp [mergeRecipe, upd, Ne.symm hid, h]
      obtain ⟨r', hfold, hrel⟩ := ih (mergeMealItem pid g it) rid r hstep
      refine ⟨r', by simpa using hfold, ?_⟩
      rcases hrel with heq | ⟨hne, x, hm', hrid', hname'⟩
      · exact Or.inl heq
      · exact Or.inr ⟨hne, x, List.mem_cons_of_mem _ hm', hrid', hname'⟩

/-- Evolution of one product node's properties through the shopping item
fold. -/
theorem slFold_products (slId : String) (items : List SLItemRow) :
    ∀ (g : Graph) (pid : String) (pr : ProductProps), g.products pid = some pr →
      ∃ pr', (items.foldl (mergeSLItem slId) g).products pid = some pr' ∧
        (pr'.name = pr.name ∨
          (pr'.name ≠ none ∧ ∃ x ∈ items, x.product_id = some pid ∧ x.product_name = pr'.name)) := by
  induction items with
  | nil => exact fun g pid pr h => ⟨pr, h, Or.inl rfl⟩
  | cons it rest ih =>
    intro g pid pr h
    by_cases hid : it.product_id = some pid
    · have hstep : (mergeSLItem slId g it).products pid =
          some ⟨coalesce it.product_name pr.name⟩ := by
        rw [mergeSLItem_products]
        apply subStep_preserve
        unfold prodStep
        rw [hid]
        simp [mergeProduct, upd, h]
      obtain ⟨pr', hfold, hrel⟩ :=
        ih (mergeSLItem slId g it) pid ⟨coalesce it.product_name pr.name⟩ hstep
      refine ⟨pr', by simpa using hfold, ?_⟩
      rcases hrel with heq | ⟨hne, x, hm', hrid', hname'⟩
      · cases hnm : it.product_name with
        | none =>
          left
          rw [heq, hnm]
          rfl
        | some s =>
          have ht : pr'.name = some s := by
            rw [heq, hnm]
            rfl
          right
          refine ⟨?_, it, List.mem_cons_self it rest, hid, ?_⟩
          · rw [ht]
            exact Option.some_ne_none s
          · rw [ht, hnm]
      · exact Or.inr ⟨hne, x, List.mem_cons_of_mem _ hm', hrid', hname'⟩
    · have hstep : (mergeSLItem slId g it).products pid = some pr := by
        rw [mergeSLItem_products]
        apply subStep_preserve
        unfold prodStep
        cases hp : it.product_id with
        | none => exact h
        | some q =>
          have hq : pid ≠ q := by
            intro he
            rw [← he] at hp
            exact hid hp
          simp [mergeProduct, upd, hq, h]
      obtain ⟨pr', hfold, hrel⟩ := ih (mergeSLItem slId g it) pid pr hstep
      refine ⟨pr', by simpa using hfold, ?_⟩
      rcases hrel with heq | ⟨hne, x, hm', hrid', hname'⟩
      · exact Or.inl heq
      · exact Or.inr ⟨hne, x, List.mem_cons_of_mem _ hm', hrid', hname'⟩

/-- Evolution of one ingredient node's properties through the shopping item
fold. -/
theorem slFold_ingredients (slId : String) (items : List SLItemRow) :
    ∀ (g : Graph) (iid : String) (ir : IngredientProps), g.ingredients iid = some ir →
      ∃ ir', (items.foldl (mergeSLItem slId) g).ingredients iid = some ir' ∧
        (ir'.name = ir.name ∨
          (ir'.name ≠ none ∧ ∃ x ∈ items, x.ingredient_id = some iid ∧ x.ingredient_name = ir'.name)) := by
  induction items with
  | nil => exact fun g iid ir h => ⟨ir, h, Or.inl rfl⟩
  | cons it rest ih =>
    intro g iid ir h
    by_cases hid : it.ingredient_id = some iid
    · have hstep : (mergeSLItem slId g it).ingredients iid =
          some ⟨coalesce it.ingredient_name ir.name⟩ := by
        rw [mergeSLItem_ingredients]
        unfold ingStep
        rw [hid]
        simp [mergeIngredient, upd, h]
      obtain ⟨ir', hfold, hrel⟩ :=
        ih (mergeSLItem slId g it) iid ⟨coalesce it.ingredient_name ir.name⟩ hstep
      refine ⟨ir', by simpa using hfold, ?_⟩
      rcases hrel with heq | ⟨hne, x, hm', hrid', hname'⟩
      · cases hnm : it.ingredient_name with
        | none =>
          left
          rw [heq, hnm]
          rfl
        | some s =>
          have ht : ir'.name = some s := by
            rw [heq, hnm]
            rfl
          right
          refine ⟨?_, it, List.mem_cons_self it rest, hid, ?_⟩
          · rw [ht]
            exact Option.some_ne_none s
          · rw [ht, hnm]
      · exact Or.inr ⟨hne, x, List.mem_cons_of_mem _ hm', hrid', hname'⟩
    · have hstep : (mergeSLItem slId g it).ingredients iid = some ir := by
        rw [mergeSLItem_ingredients]
        unfold ingStep
        cases hp : it.ingredient_id with
        | none => exact h
        | some q =>
          have hq : iid ≠ q := by
            intro he
            rw [← he] at hp
            exact hid hp
          simp [mergeIngredient, upd, hq, h]
      obtain ⟨ir', hfold, hrel⟩ := ih (mergeSLItem slId g it) iid ir hstep
      refine ⟨ir', by simpa using hfold, ?_⟩
      rcases hrel with heq | ⟨hne, x, hm', hrid', hname'⟩
      · exact Or.inl heq
      · exact Or.inr ⟨hne, x, List.mem_cons_of_mem _ hm', hrid', hname'⟩

/-- C9: in every merge, a referenced leaf entity's name field (Recipe.title,
Product.name, Ingredient.name) is only overwritten when the snapshot
supplies a non-null value for it — the node survives the merge, its name is
either unchanged or a non-null name taken from a snapshot item, and an
existing non-null name is never overwritten with null. -/
theorem leaf_name_never_nulled :
    (∀ (g : Graph) (p : MealPlanRow) (items : List MealItemRow) (rid : String)
       (r : RecipeProps), g.recipes rid = some r →
       ∃ r', (upsertMealPlan g p items).recipes rid = some r' ∧
         (r'.title = r.title ∨
           (r'.title ≠ none ∧ ∃ x ∈ items, x.recipe_id = rid ∧ x.recipe_name = r'.title)) ∧
         (r.title ≠ none → r'.title ≠ none)) ∧
    (∀ (g : Graph) (row : ShoppingListRow) (items : List SLItemRow)
       (mpid : Option String) (pid : String) (pr : ProductProps),
       g.products pid = some pr →
       ∃ pr', (upsertShoppingList g row items mpid).products pid = some pr' ∧
         (pr'.name = pr.name ∨
           (pr'.name ≠ none ∧ ∃ x ∈ items, x.product_id = some pid ∧ x.product_name = pr'.name)) ∧
         (pr.name ≠ none → pr'.name ≠ none)) ∧
    (∀ (g : Graph) (row : ShoppingListRow) (items : List SLItemRow)
       (mpid : Option String) (iid : String) (ir : IngredientProps),
       g.ingredients iid = some ir →
       ∃ ir', (upsertShoppingList g row items mpid).ingredients iid = some ir' ∧
         (ir'.name = ir.name ∨
           (ir'.name ≠ none ∧ ∃ x ∈ items, x.ingredient_id = some iid ∧ x.ingredient_name = ir'.name)) ∧
         (ir.name ≠ none → ir'.name ≠ none)) := by
  refine ⟨?_, ?_, ?_⟩
  · intro g p items rid r h
    rw [upsertMealPlan_def]
    have hbase : (clearMealPlanItems
        (addEdge
          { g with
            households := upd g.households p.household_id
              ⟨p.household_name, p.household_type⟩,
            mealPlans := upd g.mealPlans p.id (mealPlanProps p) }
          (hasMealPlanE p.household_id p.id))
        p.id).recipes rid = some r := h
    obtain ⟨r', hf, hrel⟩ := mpFold_recipes p.id items _ rid r hbase
    have himp : r.title ≠ none → r'.title ≠ none := by
      intro hrt
      rcases hrel with he | ⟨hne, _⟩
      · rw [he]
        exact hrt
      · exact hne
    exact ⟨r', hf, hrel, himp⟩
  · intro g row items mpid pid pr h
    rw [upsertShoppingList_def, linkMealPlan_products]
    have hbase : (clearShoppingListItems
        (vendorStep
          (addEdge
            { g with
              households := upd g.households row.household_id
                ⟨row.household_name, row.household_type⟩,
              shoppingLists := upd g.shoppingLists row.id (shoppingListProps row) }
            (hasShoppingListE row.household_id row.id))
          row.id row.vendor_id row.vendor_name)
        row.id).products pid = some pr := by
      show (vendorStep _ row.id row.vendor_id row.vendor_name).products pid = some pr
      rw [vendorStep_products]
      exact h
    obtain ⟨pr', hf, hrel⟩ := slFold_products row.id items _ pid pr hbase
    have himp : pr.name ≠ none → pr'.name ≠ none := by
      intro hrt
      rcases hrel with he | ⟨hne, _⟩
      · rw [he]
        exact hrt
      · exact hne
    exact ⟨pr', hf, hrel, himp⟩
  · intro g row items mpid iid ir h
    rw [upsertShoppingList_def, linkMealPlan_ingredients]
    have hbase : (clearShoppingListItems
        (vendorStep
          (addEdge
            { g with
              households := upd g.households row.household_id
                ⟨row.household_name, row.household_type⟩,
              shoppingLists := upd g.shoppingLists row.id (shoppingListProps row) }
            (hasShoppingListE row.household_id row.id))
          row.id row.vendor_id row.vendor_name)
        row.id).ingredients iid = some ir := by
      show (vendorStep _ row.id row.vendor_id row.vendor_name).ingredients iid = some ir
      rw [vendorStep_ingredients]
      exact h
    obtain ⟨ir', hf, hrel⟩ := slFold_ingredients row.id items _ iid ir hbase
    have himp : ir.name ≠ none → ir'.name ≠ none := by
      intro hrt
      rcases hrel with he | ⟨hne, _⟩
      · rw [he]
        exact hrt
      · exact hne
    exact ⟨ir', hf, hrel, himp⟩

theorem leaf_name_never_nulled_witness :
    gW9.recipes "r1" = some ⟨some "Pie"⟩ ∧
    (∃ r', (upsertMealPlan gW9 pW9 [itW9]).recipes "r1" = some r' ∧
      (r'.title = (⟨some "Pie"⟩ : RecipeProps).title ∨
        (r'.title ≠ none ∧ ∃ x ∈ [itW9], x.recipe_id = "r1" ∧ x.recipe_name = r'.title)) ∧
      ((⟨some "Pie"⟩ : RecipeProps).title ≠ none → r'.title ≠ none)) :=
  ⟨rfl, leaf_name_never_nulled.1 gW9 pW9 [itW9] "r1" ⟨some "Pie"⟩ rfl⟩

/-! ## C10: the inner join on `recipes` in the meal-plan item loader -/

theorem mem_insertBy {α : Type} (le : α → α → Bool) (a x : α) :
    ∀ l : List α, x ∈ insertBy le a l ↔ x = a ∨ x ∈ l := by
  intro l
  induction l with
  | nil => simp [insertBy]
  | cons y ys ih =>
    unfold insertBy
    by_cases hle : le y a
    · simp only [hle, if_true, List.mem_cons, ih]
      tauto
    · simp only [hle, Bool.false_eq_true, if_false, List.mem_cons]

theorem mem_sortBy {α : Type} (le : α → α → Bool) (x : α) :
    ∀ l : List α, x ∈ sortBy le l ↔ x ∈ l := by
  intro l
  induction l with
  | nil => simp [sortBy]
  | cons y ys ih =>
    unfold sortBy
    rw [mem_insertBy]
    simp [ih, List.mem_cons]

/-- Characterization of a row produced by `load_items`: it comes from a
`meal_plan_items` row of this plan with a non-null `recipe_id` that resolves
to an existing recipe, whose title becomes `recipe_name`. -/
theorem load_items_sound (db : RelDB) (pid : String) (it : MealItemRow)
    (hm : it ∈ MealPlanPipeline.load_items db pid) :
    (∃ src ∈ db.meal_plan_items, src.meal_plan_id = pid ∧ src.id = it.id ∧
      src.recipe_id = some it.recipe_id) ∧
    (∃ rec ∈ db.recipes, rec.id = it.recipe_id ∧ rec.title = it.recipe_name) := by
  unfold MealPlanPipeline.load_items at hm
  rw [mem_sortBy] at hm
  obtain ⟨src, hsrc, hf⟩ := List.mem_filterMap.mp hm
  have hsrc_mem : src ∈ db.meal_plan_items := List.mem_of_mem_filter hsrc
  have hsrc_pid : src.meal_plan_id = pid := by
    have := List.of_mem_filter hsrc
    exact eq_of_beq this
  cases hrid : src.recipe_id with
  | none =>
    rw [hrid] at hf
    cases hf
  | some rid =>
    simp only [hrid] at hf
    cases hfind : db.recipes.find? (fun rec => rec.id == rid) with
    | none =>
      simp only [hfind] at hf
      cases hf
    | some rec =>
      simp only [hfind] at hf
      have hrec_mem : rec ∈ db.recipes := List.mem_of_find?_eq_some hfind
      have hp : (rec.id == rid) = true := by
        have h1 := List.find?_some hfind
        simpa using h1
      have hrec_id : rec.id = rid := eq_of_beq hp
      have hf2 := Option.some.inj hf
      subst hf2
      exact ⟨⟨src, hsrc_mem, hsrc_pid, rfl, hrid⟩, ⟨rec, hrec_mem, hrec_id, rfl⟩⟩

theorem mergeMealItem_node_mono (pid : String) (g : Graph) (it : MealItemRow)
    (x : String) (h : ((g.mealPlanItems x).isSome : Prop)) :
    ((mergeMealItem pid g it).mealPlanItems x).isSome := by
  show ((upd g.mealPlanItems it.id (mealItemProps it)) x).isSome
  unfold upd
  by_cases hx : x = it.id
  · simp [hx]
  · simp [hx, h]

theorem mergeMealItem_edge_mono (pid : String) (g : Graph) (it : MealItemRow)
    (e : Edge) (h : g.edges e = true) :
    (mergeMealItem pid g it).edges e = true := by
  show (if e = usesRecipeE it.id it.recipe_id then true
        else if e = mpHasItemE pid it.id then true else g.edges e) = true
  by_cases h1 : e = usesRecipeE it.id it.recipe_id
  · simp [h1]
  · by_cases h2 : e = mpHasItemE pid it.id
    · simp [h1, h2]
    · simp [h1, h2, h]

theorem mergeMealItem_recipe_mono (pid : String) (g : Graph) (it : MealItemRow)
    (x : String) (h : ((g.recipes x).isSome : Prop)) :
    ((mergeMealItem pid g it).recipes x).isSome := by
  rw [mergeMealItem_recipes]
  unfold mergeRecipe upd
  by_cases hx : x = it.recipe_id
  · simp [hx]
  · simp [hx, h]

theorem mpFold_node_preserve (pid : String) (items : List MealItemRow) :
    ∀ (g : Graph) (x : String), ((g.mealPlanItems x).isSome : Prop) →
      (((items.foldl (mergeMealItem pid) g).mealPlanItems x).isSome : Prop) := by
  induction items with
  | nil => exact fun g x h => h
  | cons it rest ih =>
    intro g x h
    have := ih (mergeMealItem pid g it) x (mergeMealItem_node_mono pid g it x h)
    simpa using this

theorem mpFold_edge_preserve (pid : String) (items : List MealItemRow) :
    ∀ (g : Graph) (e : Edge), g.edges e = true →
      (items.foldl (mergeMealItem pid) g).edges e = true := by
  induction items with
  | nil => exact fun g e h => h
  | cons it rest ih =>
    intro g e h
    have := ih (mergeMealItem pid g it) e (mergeMealItem_edge_mono pid g it e h)
    simpa using this

theorem mpFold_recipe_preserve (pid : String) (items : List MealItemRow) :
    ∀ (g : Graph) (x : String), ((g.recipes x).isSome : Prop) →
      (((items.foldl (mergeMealItem pid) g).recipes x).isSome : Prop) := by
  induction items with
  | nil => exact fun g x h => h
  | cons it rest ih =>
    intro g x h
    have := ih (mergeMealItem pid g it) x (mergeMealItem_recipe_mono pid g it x h)
    simpa using this

/-- Every snapshot item ends up in the folded graph: its node exists, its
`HAS_ITEM` and `USES_RECIPE` edges are present, and its recipe node exists. -/
theorem mpFold_item_present (pid : String) (items : List MealItemRow) :
    ∀ (g : Graph) (it : MealItemRow), it ∈ items →
      ((((items.foldl (mergeMealItem pid) g).mealPlanItems it.id).isSome : Prop)) ∧
      (items.foldl (mergeMealItem pid) g).edges (mpHasItemE pid it.id) = true ∧
      (items.foldl (mergeMealItem pid) g).edges (usesRecipeE it.id it.recipe_id) = true ∧
      (((items.foldl (mergeMealItem pid) g).recipes it.recipe_id).isSome : Prop) := by
  induction items with
  | nil => intro g it h; cases h
  | cons it0 rest ih =>
    intro g it hm
    rcases List.mem_cons.mp hm with heq | hrest
    · subst heq
      have hnode : (((mergeMealItem pid g it).mealPlanItems it.id).isSome : Prop) := by
        show ((upd g.mealPlanItems it.id (mealItemProps it)) it.id).isSome
        simp [upd]
      have hedge1 : (mergeMealItem pid g it).edges (mpHasItemE pid it.id) = true := by
        show (if mpHasItemE pid it.id = usesRecipeE it.id it.recipe_id then true
              else if mpHasItemE pid it.id = mpHasItemE pid it.id then true
              else g.edges (mpHasItemE pid it.id)) = true
        simp
      have hedge2 : (mergeMealItem pid g it).edges (usesRecipeE it.id it.recipe_id) = true := by
        show (if usesRecipeE it.id it.recipe_id = usesRecipeE it.id it.recipe_id then true
              else if usesRecipeE it.id it.recipe_id = mpHasItemE pid it.id then true
              else g.edges (usesRecipeE it.id it.recipe_id)) = true
        simp
      have hrec : (((mergeMealItem pid g it).recipes it.recipe_id).isSome : Prop) := by
        rw [mergeMealItem_recipes]
        unfold mergeRecipe
        simp [upd]
      refine ⟨?_, ?_, ?_, ?_⟩
      · have := mpFold_node_preserve pid rest (mergeMealItem pid g it) it.id hnode
        simpa using this
      · have := mpFold_edge_preserve pid rest (mergeMealItem pid g it) _ hedge1
        simpa using this
      · have := mpFold_edge_preserve pid rest (mergeMealItem pid g it) _ hedge2
        simpa using this
      · have := mpFold_recipe_preserve pid rest (mergeMealItem pid g it) _ hrec
        simpa using this
    · have := ih (mergeMealItem pid g it0) it hrest
      simpa using this

/-- C10: the meal-plan item loader inner-joins `meal_plan_items` to
`recipes`, so every loaded snapshot item corresponds to a source row with a
non-null `recipe_id` that resolves to an existing recipe, and the merge
gives every such item a `MealPlanItem` node with `HAS_ITEM` and
`USES_RECIPE` edges and an existing `Recipe` node; conversely (with
`meal_plan_items.id` a primary key) a source row with a null or dangling
`recipe_id` contributes no snapshot item. -/
theorem meal_item_loader_inner_join :
    (∀ (db : RelDB) (pid : String) (it : MealItemRow),
       it ∈ MealPlanPipeline.load_items db pid →
       ((∃ src ∈ db.meal_plan_items, src.meal_plan_id = pid ∧ src.id = it.id ∧
           src.recipe_id = some it.recipe_id) ∧
        (∃ rec ∈ db.recipes, rec.id = it.recipe_id ∧ rec.title = it.recipe_name)) ∧
       (∀ (g : Graph) (p : MealPlanRow),
         (((upsertMealPlan g p (MealPlanPipeline.load_items db pid)).mealPlanItems it.id).isSome : Prop) ∧
         (upsertMealPlan g p (MealPlanPipeline.load_items db pid)).edges
           (mpHasItemE p.id it.id) = true ∧
         (upsertMealPlan g p (MealPlanPipeline.load_items db pid)).edges
           (usesRecipeE it.id it.recipe_id) = true ∧
         (((upsertMealPlan g p (MealPlanPipeline.load_items db pid)).recipes it.recipe_id).isSome : Prop))) ∧
    (∀ (db : RelDB) (pid : String),
       (db.meal_plan_items.map (fun r => r.id)).Nodup →
       ∀ src ∈ db.meal_plan_items,
         (src.recipe_id = none ∨ ∀ rec ∈ db.recipes, some rec.id ≠ src.recipe_id) →
         ∀ it ∈ MealPlanPipeline.load_items db pid, it.id ≠ src.id) := by
  constructor
  · intro db pid it hm
    refine ⟨load_items_sound db pid it hm, ?_⟩
    intro g p
    rw [upsertMealPlan_def]
    exact mpFold_item_present p.id (MealPlanPipeline.load_items db pid) _ it hm
  · intro db pid hnd src hsrc hbad it hit hideq
    obtain ⟨⟨src', hsrc', hpid', hid', hrid'⟩, ⟨rec, hrec, hrecid, -⟩⟩ :=
      load_items_sound db pid it hit
    have hsame : src' = src := by
      apply List.inj_on_of_nodup_map hnd hsrc' hsrc
      show src'.id = src.id
      rw [hid', hideq]
    rw [hsame] at hrid'
    rcases hbad with hnull | hdangle
    · rw [hnull] at hrid'
      cases hrid'
    · exact hdangle rec hrec (by rw [hrecid, ← hrid'])

theorem meal_item_loader_inner_join_witness :
    itW10 ∈ MealPlanPipeline.load_items dbW "mp1" ∧
    (∃ src ∈ dbW.meal_plan_items, src.meal_plan_id = "mp1" ∧ src.id = itW10.id ∧
      src.recipe_id = some itW10.recipe_id) :=
  ⟨by decide, ((meal_item_loader_inner_join.1 dbW "mp1" itW10 (by decide)).1).1⟩

/-! ## C5: the concrete shopping-list scenario -/

set_option maxHeartbeats 1000000 in
/-- C5: merging the scenario snapshot (null `vendor_id`, three items of which
two carry an `ingredient_id`, non-null `meal_plan_id` pointing at the
existing `mp1`) produces the `ShoppingList` node, no `Vendor` node and no
`TARGETS_VENDOR` edge, exactly the three `ShoppingListItem` nodes each with
a `HAS_ITEM` edge from the list, `Ingredient` nodes and `USES_INGREDIENT`
edges exactly for the two items that had one (and no product edges), and
the `GENERATES_LIST` edge from `mp1`; merging the same snapshot into a
graph where `mp1` does not exist creates no `GENERATES_LIST` edge. -/
theorem shopping_scenario :
    (upsertShoppingList gC5 rowC5 itemsC5 (some "mp1")).shoppingLists "sl1" =
      some (shoppingListProps rowC5) ∧
    (∀ v, (upsertShoppingList gC5 rowC5 itemsC5 (some "mp1")).vendors v = none) ∧
    (∀ lid vid, (upsertShoppingList gC5 rowC5 itemsC5 (some "mp1")).edges
      (targetsVendorE lid vid) = false) ∧
    (∀ j, (upsertShoppingList gC5 rowC5 itemsC5 (some "mp1")).shoppingListItems j =
      (if j = "i3" then some (slItemProps i3C5) else if j = "i2" then some (slItemProps i2C5)
       else if j = "i1" then some (slItemProps i1C5) else none)) ∧
    (∀ x y, (upsertShoppingList gC5 rowC5 itemsC5 (some "mp1")).edges (slHasItemE x y) = true ↔
      (x = "sl1" ∧ (y = "i1" ∨ y = "i2" ∨ y = "i3"))) ∧
    (∀ i, (upsertShoppingList gC5 rowC5 itemsC5 (some "mp1")).ingredients i =
      (if i = "gB" then some ⟨some "PepperIng"⟩ else if i = "gA" then some ⟨some "SaltIng"⟩
       else none)) ∧
    (∀ x y, (upsertShoppingList gC5 rowC5 itemsC5 (some "mp1")).edges (usesIngredientE x y) = true ↔
      ((x = "i2" ∧ y = "gA") ∨ (x = "i3" ∧ y = "gB"))) ∧
    (∀ x y, (upsertShoppingList gC5 rowC5 itemsC5 (some "mp1")).edges (usesProductE x y) = false) ∧
    (upsertShoppingList gC5 rowC5 itemsC5 (some "mp1")).edges (generatesListE "mp1" "sl1") = true ∧
    gC5.mealPlans "mp1" ≠ none ∧
    Graph.empty.mealPlans "mp1" = none ∧
    (∀ x y, (upsertShoppingList Graph.empty rowC5 itemsC5 (some "mp1")).edges
      (generatesListE x y) = false) := by
  refine ⟨?_, ?_, ?_, ?_, ?_, ?_, ?_, ?_, ?_, ?_, ?_, ?_⟩
  · decide
  · intro v
    simp [upsertShoppingList, vendorStep, clearShoppingListItems, mergeSLItem, linkMealPlan,
      addEdge, upd, gC5, rowC5, itemsC5, i1C5, i2C5, i3C5, Graph.empty, mergeIngredient]
  · intro lid vid
    simp [upsertShoppingList, vendorStep, clearShoppingListItems, mergeSLItem, linkMealPlan,
      addEdge, touchesSLI, slKids, upd, gC5, rowC5, itemsC5, i1C5, i2C5, i3C5, Graph.empty,
      slHasItemE, hasShoppingListE, usesProductE, usesIngredientE, substituteProductE,
      generatesListE, targetsVendorE, mergeIngredient, Edge.mk.injEq]
  · intro j
    simp [upsertShoppingList, vendorStep, clearShoppingListItems, mergeSLItem, linkMealPlan,
      addEdge, touchesSLI, slKids, upd, gC5, rowC5, itemsC5, i1C5, i2C5, i3C5, Graph.empty,
      mergeIngredient, slItemProps, slHasItemE, hasShoppingListE, Edge.mk.injEq]
  · intro x y
    simp [upsertShoppingList, vendorStep, clearShoppingListItems, mergeSLItem, linkMealPlan,
      addEdge, touchesSLI, slKids, upd, gC5, rowC5, itemsC5, i1C5, i2C5, i3C5, Graph.empty,
      mergeIngredient, slHasItemE, hasShoppingListE, usesProductE, usesIngredientE,
      substituteProductE, generatesListE, Edge.mk.injEq]
    tauto
  · intro i
    simp [upsertShoppingList, vendorStep, clearShoppingListItems, mergeSLItem, linkMealPlan,
      addEdge, touchesSLI, slKids, upd, gC5, rowC5, itemsC5, i1C5, i2C5, i3C5, Graph.empty,
      mergeIngredient, coalesce]
  · intro x y
    simp [upsertShoppingList, vendorStep, clearShoppingListItems, mergeSLItem, linkMealPlan,
      addEdge, touchesSLI, slKids, upd, gC5, rowC5, itemsC5, i1C5, i2C5, i3C5, Graph.empty,
      mergeIngredient, slHasItemE, hasShoppingListE, usesProductE, usesIngredientE,
      substituteProductE, generatesListE, Edge.mk.injEq]
    tauto
  · intro x y
    simp [upsertShoppingList, vendorStep, clearShoppingListItems, mergeSLItem, linkMealPlan,
      addEdge, touchesSLI, slKids, upd, gC5, rowC5, itemsC5, i1C5, i2C5, i3C5, Graph.empty,
      mergeIngredient, slHasItemE, hasShoppingListE, usesProductE, usesIngredientE,
      substituteProductE, generatesListE, Edge.mk.injEq]
  · decide
  · decide
  · decide
  · intro x y
    simp [upsertShoppingList, vendorStep, clearShoppingListItems, mergeSLItem, linkMealPlan,
      addEdge, touchesSLI, slKids, upd, rowC5, itemsC5, i1C5, i2C5, i3C5, Graph.empty,
      mergeIngredient, slHasItemE, hasShoppingListE, usesProductE, usesIngredientE,
      substituteProductE, generatesListE, Edge.mk.injEq]

theorem shopping_scenario_witness :
    (upsertShoppingList gC5 rowC5 itemsC5 (some "mp1")).edges (slHasItemE "sl1" "i1") = true ∧
    (upsertShoppingList gC5 rowC5 itemsC5 (some "mp1")).vendors "v9" = none :=
  ⟨(shopping_scenario.2.2.2.2.1 "sl1" "i1").mpr ⟨rfl, Or.inl rfl⟩,
   shopping_scenario.2.1 "v9"⟩

/-! ## C1: idempotence of the merge -/

/-- C1 counterexample: merging `mp1`'s snapshot once leaves the stale
`HAS_ITEM` edge from `mp2` to the reparented item `x` in place, and a second
merge of the *same* snapshot removes it (the clear step detach-deletes `x`,
now a child of `mp1`, together with all its edges): the two states differ,
so the merge is not idempotent on all graph states. -/
theorem merge_idempotence_counterexample :
    (upsertMealPlan gCX pCX [itCX]).edges (mpHasItemE "mp2" "x") = true ∧
    (upsertMealPlan (upsertMealPlan gCX pCX [itCX]) pCX [itCX]).edges
      (mpHasItemE "mp2" "x") = false ∧
    upsertMealPlan (upsertMealPlan gCX pCX [itCX]) pCX [itCX] ≠
      upsertMealPlan gCX pCX [itCX] := by
  refine ⟨by decide, by decide, ?_⟩
  intro h
  have h2 := congrArg (fun G => G.edges (mpHasItemE "mp2" "x")) h
  simp only at h2
  rw [show (upsertMealPlan (upsertMealPlan gCX pCX [itCX]) pCX [itCX]).edges
        (mpHasItemE "mp2" "x") = false by decide,
      show (upsertMealPlan gCX pCX [itCX]).edges (mpHasItemE "mp2" "x") = true
        by decide] at h2
  cases h2

theorem coalesce_none_right (a : Option String) : coalesce a none = a := by
  cases a <;> rfl

theorem coalesce_assoc (a b c : Option String) :
    coalesce (coalesce a b) c = coalesce a (coalesce b c) := by
  cases a <;> cases b <;> rfl

theorem coalesce_absorb (a b : Option String) :
    coalesce a (coalesce a b) = coalesce a b := by
  cases a <;> rfl

theorem if_eq_then_true {α : Type} [DecidableEq α] (a b : α) (c : Bool) :
    (if a = b then true else c) = (a == b || c) := by
  by_cases h : a = b <;> simp [h]

theorem mergeMealItem_edges_eval (pid : String) (g : Graph) (it : MealItemRow)
    (e : Edge) :
    (mergeMealItem pid g it).edges e =
      (if e = usesRecipeE it.id it.recipe_id then true
       else if e = mpHasItemE pid it.id then true else g.edges e) := rfl

theorem mpFold_edges (pid : String) (items : List MealItemRow) :
    ∀ (g : Graph) (e : Edge),
      (items.foldl (mergeMealItem pid) g).edges e = (mpAdded pid items e || g.edges e) := by
  induction items with
  | nil =>
    intro g e
    simp [mpAdded]
  | cons it rest ih =>
    intro g e
    have h1 : (List.foldl (mergeMealItem pid) g (it :: rest)).edges e =
        (mpAdded pid rest e || (mergeMealItem pid g it).edges e) := ih _ e
    rw [h1, mergeMealItem_edges_eval, if_eq_then_true, if_eq_then_true]
    simp only [mpAdded, List.any_cons]
    cases hb1 : (e == mpHasItemE pid it.id) <;>
      cases hb2 : (e == usesRecipeE it.id it.recipe_id) <;>
      cases hb3 : rest.any (fun it => e == mpHasItemE pid it.id ||
        e == usesRecipeE it.id it.recipe_id) <;>
      cases hb4 : g.edges e <;> simp [hb1, hb2, hb3, hb4]

theorem lastItemWith_cons (x : String) (it : MealItemRow) (rest : List MealItemRow) :
    lastItemWith x (it :: rest) =
      (match lastItemWith x rest with
       | some it' => some it'
       | none => if it.id = x then some it else none) := rfl

theorem mpFold_items_at (pid : String) (items : List MealItemRow) :
    ∀ (g : Graph) (x : String),
      (items.foldl (mergeMealItem pid) g).mealPlanItems x =
        (match lastItemWith x items with
         | some it => some (mealItemProps it)
         | none => g.mealPlanItems x) := by
  induction items with
  | nil =>
    intro g x
    rfl
  | cons it rest ih =>
    intro g x
    have h1 : (List.foldl (mergeMealItem pid) g (it :: rest)).mealPlanItems x =
        (match lastItemWith x rest with
         | some it' => some (mealItemProps it')
         | none => (mergeMealItem pid g it).mealPlanItems x) := ih _ x
    have hstep : (mergeMealItem pid g it).mealPlanItems x =
        (if it.id = x then some (mealItemProps it) else g.mealPlanItems x) := by
      show upd g.mealPlanItems it.id (mealItemProps it) x = _
      unfold upd
      by_cases hx : it.id = x
      · simp [hx]
      · simp [hx, Ne.symm hx]
    rw [h1, lastItemWith_cons]
    cases hlw : lastItemWith x rest with
    | some it' => rfl
    | none =>
      rw [hstep]
      by_cases hit : it.id = x
      · simp [hit]
      · simp [hit]

theorem mergeMealItem_recipes_at (pid : String) (g : Graph) (it : MealItemRow)
    (x : String) :
    (mergeMealItem pid g it).recipes x =
      (if it.recipe_id = x then some ⟨coalesce it.recipe_name (titleOpt (g.recipes x))⟩
       else g.recipes x) := by
  rw [mergeMealItem_recipes]
  unfold mergeRecipe upd
  by_cases hx : it.recipe_id = x
  · subst hx
    cases hg : g.recipes it.recipe_id <;> simp [hg, titleOpt]
  · simp [hx, Ne.symm hx]

theorem mpFold_recipes_at (pid : String) (items : List MealItemRow) :
    ∀ (g : Graph) (x : String),
      (items.foldl (mergeMealItem pid) g).recipes x =
        recipeAfter x items (g.recipes x) := by
  induction items with
  | nil =>
    intro g x
    rfl
  | cons it rest ih =>
    intro g x
    have h1 := ih (mergeMealItem pid g it) x
    show (List.foldl (mergeMealItem pid) (mergeMealItem pid g it) rest).recipes x = _
    rw [h1, mergeMealItem_recipes_at]
    rfl

theorem hasRecipeRel_cons (x : String) (it : MealItemRow) (rest : List MealItemRow) :
    hasRecipeRel x (it :: rest) = ((it.recipe_id == x) || hasRecipeRel x rest) := by
  unfold hasRecipeRel
  rw [List.any_cons]

theorem lastTitle_cons (x : String) (it : MealItemRow) (rest : List MealItemRow) :
    lastTitle x (it :: rest) =
      coalesce (lastTitle x rest) (if it.recipe_id = x then it.recipe_name else none) := rfl

theorem recipeAfter_cons (x : String) (it : MealItemRow) (rest : List MealItemRow)
    (cur : Option RecipeProps) :
    recipeAfter x (it :: rest) cur =
      recipeAfter x rest
        (if it.recipe_id = x then some ⟨coalesce it.recipe_name (titleOpt cur)⟩ else cur) := rfl

theorem lastTitle_none_of_no_rel (x : String) (items : List MealItemRow)
    (h : hasRecipeRel x items = false) : lastTitle x items = none := by
  induction items with
  | nil => rfl
  | cons it rest ih =>
    rw [hasRecipeRel_cons] at h
    have h1 : (it.recipe_id == x) = false := by
      cases hb : (it.recipe_id == x)
      · rfl
      · rw [hb] at h
        simp at h
    have h2 : hasRecipeRel x rest = false := by
      cases hb : hasRecipeRel x rest
      · rfl
      · rw [hb] at h
        simp at h
    have hne : ¬ it.recipe_id = x := by
      intro he
      rw [he] at h1
      simp at h1
    rw [lastTitle_cons, ih h2, if_neg hne]
    rfl

theorem recipeAfter_char (x : String) (items : List MealItemRow) :
    ∀ cur, recipeAfter x items cur =
      (if hasRecipeRel x items then
        some ⟨coalesce (lastTitle x items) (titleOpt cur)⟩
       else cur) := by
  induction items with
  | nil =>
    intro cur
    simp [recipeAfter, hasRecipeRel]
  | cons it rest ih =>
    intro cur
    rw [recipeAfter_cons, ih, lastTitle_cons, hasRecipeRel_cons]
    by_cases hrel : it.recipe_id = x
    · by_cases hrest : hasRecipeRel x rest
      · simp [hrel, hrest, titleOpt, coalesce_assoc]
      · have hb : hasRecipeRel x rest = false := by
          cases hv : hasRecipeRel x rest
          · rfl
          · exact absurd hv hrest
        have hlt := lastTitle_none_of_no_rel x rest hb
        simp [hrel, hb, hlt, titleOpt, coalesce]
    · by_cases hrest : hasRecipeRel x rest
      · simp [hrel, hrest, titleOpt, coalesce_none_right, beq_iff_eq]
      · have hb : hasRecipeRel x rest = false := by
          cases hv : hasRecipeRel x rest
          · rfl
          · exact absurd hv hrest
        simp [hrel, hb, beq_iff_eq]

theorem recipeAfter_idem (x : String) (items : List MealItemRow) (cur : Option RecipeProps) :
    recipeAfter x items (recipeAfter x items cur) = recipeAfter x items cur := by
  simp only [recipeAfter_char]
  by_cases h : hasRecipeRel x items
  · simp [h, titleOpt, coalesce_absorb]
  · simp [h]

theorem graph_ext (g1 g2 : Graph)
    (h1 : g1.households = g2.households) (h2 : g1.mealPlans = g2.mealPlans)
    (h3 : g1.mealPlanItems = g2.mealPlanItems)
    (h4 : g1.shoppingLists = g2.shoppingLists)
    (h5 : g1.shoppingListItems = g2.shoppingListItems)
    (h6 : g1.vendors = g2.vendors) (h7 : g1.products = g2.products)
    (h8 : g1.ingredients = g2.ingredients) (h9 : g1.recipes = g2.recipes)
    (h10 : g1.edges = g2.edges) : g1 = g2 := by
  cases g1
  cases g2
  simp only [Graph.mk.injEq]
  exact ⟨h1, h2, h3, h4, h5, h6, h7, h8, h9, h10⟩

theorem upd_upd {α : Type} (m : NodeMap α) (k : String) (v : α) :
    upd (upd m k v) k v = upd m k v :=
  upd_eq_self (upd m k v) k v (upd_self m k v)

theorem addFun_of_present (f : Edge → Bool) (e : Edge) (h : f e = true) :
    (fun x => if x = e then true else f x) = f := by
  funext x
  by_cases hx : x = e
  · subst hx
    simp [h]
  · simp [hx]

theorem mpFold_preserved (pid : String) (items : List MealItemRow) :
    ∀ g : Graph,
      (items.foldl (mergeMealItem pid) g).households = g.households ∧
      (items.foldl (mergeMealItem pid) g).mealPlans = g.mealPlans ∧
      (items.foldl (mergeMealItem pid) g).shoppingLists = g.shoppingLists ∧
      (items.foldl (mergeMealItem pid) g).shoppingListItems = g.shoppingListItems ∧
      (items.foldl (mergeMealItem pid) g).vendors = g.vendors ∧
      (items.foldl (mergeMealItem pid) g).products = g.products ∧
      (items.foldl (mergeMealItem pid) g).ingredients = g.ingredients := by
  induction items with
  | nil => exact fun g => ⟨rfl, rfl, rfl, rfl, rfl, rfl, rfl⟩
  | cons it rest ih =>
    intro g
    have h := ih (mergeMealItem pid g it)
    exact ⟨h.1, h.2.1, h.2.2.1, h.2.2.2.1, h.2.2.2.2.1, h.2.2.2.2.2.1, h.2.2.2.2.2.2⟩

theorem hasItemId_iff (x : String) (items : List MealItemRow) :
    hasItemId x items = true ↔ ∃ it ∈ items, it.id = x := by
  unfold hasItemId
  rw [List.any_eq_true]
  constructor
  · rintro ⟨it, hm, hb⟩
    exact ⟨it, hm, eq_of_beq hb⟩
  · rintro ⟨it, hm, he⟩
    exact ⟨it, hm, by simp [he]⟩

theorem lastItemWith_none_iff (x : String) (items : List MealItemRow) :
    lastItemWith x items = none ↔ hasItemId x items = false := by
  induction items with
  | nil => simp [lastItemWith, hasItemId]
  | cons it rest ih =>
    rw [lastItemWith_cons]
    have hcons : hasItemId x (it :: rest) = ((it.id == x) || hasItemId x rest) := by
      unfold hasItemId
      rw [List.any_cons]
    rw [hcons]
    cases hlw : lastItemWith x rest with
    | some it' =>
      have : hasItemId x rest = true := by
        cases hb : hasItemId x rest
        · rw [← ih] at hb
          rw [hlw] at hb
          cases hb
        · rfl
      simp [this]
    | none =>
      have hrest : hasItemId x rest = false := by
        rw [← ih]
        exact hlw
      rw [hrest]
      by_cases hit : it.id = x
      · simp [hit]
      · simp [hit]

theorem mpAdded_hasItem (pid : String) (items : List MealItemRow) (i : String) :
    mpAdded pid items (mpHasItemE pid i) = hasItemId i items := by
  unfold mpAdded hasItemId
  induction items with
  | nil => rfl
  | cons it rest ih =>
    rw [List.any_cons, List.any_cons, ih]
    have h1 : (mpHasItemE pid i == mpHasItemE pid it.id) = (it.id == i) := by
      simp [mpHasItemE, Edge.mk.injEq, beq_iff_eq, eq_comm]
    have h2 : (mpHasItemE pid i == usesRecipeE it.id it.recipe_id) = false := by
      simp [mpHasItemE, usesRecipeE, Edge.mk.injEq, beq_iff_eq]
    rw [h1, h2]
    simp

theorem clear_no_hasItem (g : Graph) (pid i : String) :
    (clearMealPlanItems g pid).edges (mpHasItemE pid i) = false := by
  unfold clearMealPlanItems touchesMPI mpKids
  simp only [mpHasItemE]
  by_cases h : g.edges ⟨"MealPlan", pid, "HAS_ITEM", "MealPlanItem", i⟩
  · simp [h]
  · simp [h]

theorem hE_ne_hasItem (hid pid i : String) :
    ¬ (mpHasItemE pid i = hasMealPlanE hid pid) := by
  intro h
  simp [mpHasItemE, hasMealPlanE, Edge.mk.injEq] at h

theorem clear_preserves_nonItem (g : Graph) (pid : String) (e : Edge)
    (h : touchesMPI (mpKids g pid) e = false) :
    (clearMealPlanItems g pid).edges e = g.edges e := by
  unfold clearMealPlanItems
  simp [h]

theorem upsertMealPlan_households (g0 : Graph) (p : MealPlanRow)
    (items : List MealItemRow) :
    (upsertMealPlan g0 p items).households =
      upd g0.households p.household_id ⟨p.household_name, p.household_type⟩ := by
  rw [upsertMealPlan_def, (mpFold_preserved p.id items _).1]
  rfl

theorem upsertMealPlan_mealPlans (g0 : Graph) (p : MealPlanRow)
    (items : List MealItemRow) :
    (upsertMealPlan g0 p items).mealPlans = upd g0.mealPlans p.id (mealPlanProps p) := by
  rw [upsertMealPlan_def, (mpFold_preserved p.id items _).2.1]
  rfl

theorem upsertMealPlan_others (g0 : Graph) (p : MealPlanRow)
    (items : List MealItemRow) :
    (upsertMealPlan g0 p items).shoppingLists = g0.shoppingLists ∧
    (upsertMealPlan g0 p items).shoppingListItems = g0.shoppingListItems ∧
    (upsertMealPlan g0 p items).vendors = g0.vendors ∧
    (upsertMealPlan g0 p items).products = g0.products ∧
    (upsertMealPlan g0 p items).ingredients = g0.ingredients := by
  have h := mpFold_preserved p.id items
    (clearMealPlanItems
      (addEdge
        { g0 with
          households := upd g0.households p.household_id
            ⟨p.household_name, p.household_type⟩,
          mealPlans := upd g0.mealPlans p.id (mealPlanProps p) }
        (hasMealPlanE p.household_id p.id))
      p.id)
  rw [upsertMealPlan_def]
  exact ⟨h.2.2.1, h.2.2.2.1, h.2.2.2.2.1, h.2.2.2.2.2.1, h.2.2.2.2.2.2⟩

theorem upsertMealPlan_recipes_at (g0 : Graph) (p : MealPlanRow)
    (items : List MealItemRow) (x : String) :
    (upsertMealPlan g0 p items).recipes x = recipeAfter x items (g0.recipes x) := by
  rw [upsertMealPlan_def, mpFold_recipes_at]
  rfl

theorem upsertMealPlan_edges_at (g0 : Graph) (p : MealPlanRow)
    (items : List MealItemRow) (e : Edge) :
    (upsertMealPlan g0 p items).edges e =
      (mpAdded p.id items e ||
        (if touchesMPI (fun i => g0.edges (mpHasItemE p.id i)) e then false
         else if e = hasMealPlanE p.household_id p.id then true else g0.edges e)) := by
  rw [upsertMealPlan_def, mpFold_edges]
  congr 1

theorem upsertMealPlan_items_at (g0 : Graph) (p : MealPlanRow)
    (items : List MealItemRow) (x : String) :
    (upsertMealPlan g0 p items).mealPlanItems x =
      (match lastItemWith x items with
       | some it => some (mealItemProps it)
       | none => if g0.edges (mpHasItemE p.id x) then none else g0.mealPlanItems x) := by
  rw [upsertMealPlan_def, mpFold_items_at]
  cases hlw : lastItemWith x items with
  | some it => rfl
  | none =>
    show (clearMealPlanItems _ p.id).mealPlanItems x = _
    have hkids : mpKids
        (addEdge
          { g0 with
            households := upd g0.households p.household_id
              ⟨p.household_name, p.household_type⟩,
            mealPlans := upd g0.mealPlans p.id (mealPlanProps p) }
          (hasMealPlanE p.household_id p.id))
        p.id = fun i => g0.edges (mpHasItemE p.id i) := by
      funext i
      show (if mpHasItemE p.id i = hasMealPlanE p.household_id p.id then true
            else g0.edges (mpHasItemE p.id i)) = _
      rw [if_neg (hE_ne_hasItem p.household_id p.id i)]
    unfold clearMealPlanItems
    rw [hkids]
    rfl

theorem upsertMealPlan_hasItem (g0 : Graph) (p : MealPlanRow)
    (items : List MealItemRow) (i : String) :
    (upsertMealPlan g0 p items).edges (mpHasItemE p.id i) = hasItemId i items := by
  rw [upsertMealPlan_edges_at, mpAdded_hasItem]
  have ht : touchesMPI (fun j => g0.edges (mpHasItemE p.id j)) (mpHasItemE p.id i) =
      g0.edges (mpHasItemE p.id i) := by
    unfold touchesMPI
    simp [mpHasItemE]
  rw [ht]
  have hne : ¬ mpHasItemE p.id i = hasMealPlanE p.household_id p.id :=
    hE_ne_hasItem p.household_id p.id i
  by_cases hb : g0.edges (mpHasItemE p.id i) = true
  · rw [hb]
    simp
  · have hb' : g0.edges (mpHasItemE p.id i) = false := by
      cases hv : g0.edges (mpHasItemE p.id i)
      · rfl
      · exact absurd hv hb
    rw [hb']
    simp [hne]

theorem upsertMealPlan_hME (g0 : Graph) (p : MealPlanRow)
    (items : List MealItemRow) :
    (upsertMealPlan g0 p items).edges (hasMealPlanE p.household_id p.id) = true := by
  rw [upsertMealPlan_edges_at]
  have ht : touchesMPI (fun j => g0.edges (mpHasItemE p.id j))
      (hasMealPlanE p.household_id p.id) = false := by
    unfold touchesMPI
    simp [hasMealPlanE]
  rw [ht]
  simp

theorem touchesMPI_iff (kids : String → Bool) (e : Edge) :
    touchesMPI kids e = true ↔
      ((e.srcLabel = "MealPlanItem" ∧ kids e.srcId = true) ∨
       (e.dstLabel = "MealPlanItem" ∧ kids e.dstId = true)) := by
  unfold touchesMPI
  simp [Bool.or_eq_true, Bool.and_eq_true, beq_iff_eq]

theorem upsertMealPlan_idem (g : Graph) (p : MealPlanRow)
    (items : List MealItemRow) (hown : mpOwned g p.id items) :
    upsertMealPlan (upsertMealPlan g p items) p items = upsertMealPlan g p items := by
  have hfun : (fun i => (upsertMealPlan g p items).edges (mpHasItemE p.id i)) =
      fun i => hasItemId i items :=
    funext (fun i => upsertMealPlan_hasItem g p items i)
  apply graph_ext
  · simp only [upsertMealPlan_households, upd_upd]
  · simp only [upsertMealPlan_mealPlans, upd_upd]
  · funext x
    rw [upsertMealPlan_items_at (upsertMealPlan g p items) p items x]
    cases hlw : lastItemWith x items with
    | some it =>
      rw [upsertMealPlan_items_at g p items x, hlw]
    | none =>
      have hid : hasItemId x items = false := (lastItemWith_none_iff x items).mp hlw
      rw [upsertMealPlan_hasItem g p items x, hid]
      rfl
  · rw [(upsertMealPlan_others (upsertMealPlan g p items) p items).1]
  · rw [(upsertMealPlan_others (upsertMealPlan g p items) p items).2.1]
  · rw [(upsertMealPlan_others (upsertMealPlan g p items) p items).2.2.1]
  · rw [(upsertMealPlan_others (upsertMealPlan g p items) p items).2.2.2.1]
  · rw [(upsertMealPlan_others (upsertMealPlan g p items) p items).2.2.2.2]
  · funext x
    rw [upsertMealPlan_recipes_at (upsertMealPlan g p items) p items x,
      upsertMealPlan_recipes_at g p items x, recipeAfter_idem]
  · funext e
    rw [upsertMealPlan_edges_at (upsertMealPlan g p items) p items e, hfun]
    by_cases hAdd : mpAdded p.id items e = true
    · have hG1 : (upsertMealPlan g p items).edges e = true := by
        rw [upsertMealPlan_edges_at g p items e, hAdd]
        simp
      rw [hAdd, hG1]
      simp
    · have hAdd' : mpAdded p.id items e = false := by
        cases hv : mpAdded p.id items e
        · rfl
        · exact absurd hv hAdd
      rw [hAdd']
      simp only [Bool.false_or]
      by_cases hT : touchesMPI (fun i => hasItemId i items) e = true
      · rw [if_pos hT]
        rw [upsertMealPlan_edges_at g p items e, hAdd']
        simp only [Bool.false_or]
        by_cases hTg : touchesMPI (fun i => g.edges (mpHasItemE p.id i)) e = true
        · rw [if_pos hTg]
        · rw [if_neg hTg]
          have heE : ¬ e = hasMealPlanE p.household_id p.id := by
            intro he
            rw [he] at hT
            rw [touchesMPI_iff] at hT
            rcases hT with ⟨hl, -⟩ | ⟨hl, -⟩ <;> simp [hasMealPlanE] at hl
          rw [if_neg heE]
          cases hge : g.edges e with
          | false => rfl
          | true =>
            exfalso
            apply hTg
            rw [touchesMPI_iff] at hT ⊢
            rcases hT with ⟨hl, hk⟩ | ⟨hl, hk⟩
            · obtain ⟨it, hm, hidit⟩ := (hasItemId_iff e.srcId items).mp hk
              have hkid : g.edges (mpHasItemE p.id it.id) = true :=
                hown it hm e hge (Or.inl ⟨hl, hidit.symm⟩)
              left
              refine ⟨hl, ?_⟩
              rw [← hidit]
              exact hkid
            · obtain ⟨it, hm, hidit⟩ := (hasItemId_iff e.dstId items).mp hk
              have hkid : g.edges (mpHasItemE p.id it.id) = true :=
                hown it hm e hge (Or.inr ⟨hl, hidit.symm⟩)
              right
              refine ⟨hl, ?_⟩
              rw [← hidit]
              exact hkid
      · rw [if_neg hT]
        by_cases heE : e = hasMealPlanE p.household_id p.id
        · rw [if_pos heE, heE, upsertMealPlan_hME]
        · rw [if_neg heE]

theorem beq_eq_decide_eq {α : Type} [DecidableEq α] (a b : α) :
    (a == b) = decide (a = b) := rfl

theorem mergeSLItem_edges_eval (slId : String) (g : Graph) (it : SLItemRow)
    (e : Edge) :
    (mergeSLItem slId g it).edges e = (slItemAdded slId it e || g.edges e) := by
  unfold mergeSLItem slItemAdded
  cases hp : it.product_id <;> cases hi : it.ingredient_id <;>
    cases hs : it.substituted_product_id <;>
    simp [addEdge, if_eq_then_true, Bool.or_assoc, beq_eq_decide_eq]

theorem slFold_edges_all (slId : String) (items : List SLItemRow) :
    ∀ (g : Graph) (e : Edge),
      (items.foldl (mergeSLItem slId) g).edges e = (slAdded slId items e || g.edges e) := by
  induction items with
  | nil =>
    intro g e
    simp [slAdded]
  | cons it rest ih =>
    intro g e
    have h1 : (List.foldl (mergeSLItem slId) g (it :: rest)).edges e =
        (slAdded slId rest e || (mergeSLItem slId g it).edges e) := ih _ e
    rw [h1, mergeSLItem_edges_eval]
    simp only [slAdded, List.any_cons]
    cases hb1 : slItemAdded slId it e <;>
      cases hb2 : rest.any (fun it => slItemAdded slId it e) <;>
      cases hb3 : g.edges e <;> simp [hb1, hb2, hb3]

theorem mergeSLItem_items_at (slId : String) (g : Graph) (it : SLItemRow)
    (x : String) :
    (mergeSLItem slId g it).shoppingListItems x =
      (if it.id = x then some (slItemProps it) else g.shoppingListItems x) := by
  have hproj : (mergeSLItem slId g it).shoppingListItems =
      upd g.shoppingListItems it.id (slItemProps it) := by
    unfold mergeSLItem
    cases hp : it.product_id <;> cases hi : it.ingredient_id <;>
      cases hs : it.substituted_product_id <;> rfl
  rw [hproj]
  unfold upd
  by_cases hx : it.id = x
  · simp [hx]
  · simp [hx, Ne.symm hx]

theorem lastSLItemWith_cons (x : String) (it : SLItemRow) (rest : List SLItemRow) :
    lastSLItemWith x (it :: rest) =
      (match lastSLItemWith x rest with
       | some it' => some it'
       | none => if it.id = x then some it else none) := rfl

theorem slFold_items_at (slId : String) (items : List SLItemRow) :
    ∀ (g : Graph) (x : String),
      (items.foldl (mergeSLItem slId) g).shoppingListItems x =
        (match lastSLItemWith x items with
         | some it => some (slItemProps it)
         | none => g.shoppingListItems x) := by
  induction items with
  | nil =>
    intro g x
    rfl
  | cons it rest ih =>
    intro g x
    have h1 : (List.foldl (mergeSLItem slId) g (it :: rest)).shoppingListItems x =
        (match lastSLItemWith x rest with
         | some it' => some (slItemProps it')
         | none => (mergeSLItem slId g it).shoppingListItems x) := ih _ x
    rw [h1, lastSLItemWith_cons]
    cases hlw : lastSLItemWith x rest with
    | some it' => rfl
    | none =>
      rw [mergeSLItem_items_at]
      by_cases hit : it.id = x
      · simp [hit]
      · simp [hit]

theorem prodStep_at (m : NodeMap ProductProps) (it : SLItemRow) (x : String) :
    prodStep m it x =
      (if it.product_id = some x then
        some ⟨coalesce it.product_name (nameOptP (m x))⟩ else m x) := by
  unfold prodStep
  cases hp : it.product_id with
  | none =>
    rw [if_neg (by simp)]
  | some pid =>
    by_cases hpx : pid = x
    · subst hpx
      rw [if_pos rfl]
      unfold mergeProduct upd
      cases hm : m pid <;> simp [hm, nameOptP]
    · rw [if_neg (by simp [hpx])]
      unfold mergeProduct upd
      simp [Ne.symm hpx]

theorem subStep_at (m : NodeMap ProductProps) (it : SLItemRow) (x : String) :
    subStep m it x =
      (if it.substituted_product_id = some x then some ((m x).getD ⟨none⟩) else m x) := by
  unfold subStep
  cases hs : it.substituted_product_id with
  | none =>
    rw [if_neg (by simp)]
  | some spid =>
    by_cases hsx : spid = x
    · subst hsx
      rw [if_pos rfl]
      unfold ensureProduct
      cases hm : m spid <;> simp [hm, upd]
    · rw [if_neg (by simp [hsx])]
      show ensureProduct m spid x = m x
      unfold ensureProduct
      cases hm : m spid with
      | some w => simp [hm]
      | none => simp [hm, upd, Ne.symm hsx]

theorem mergeSLItem_products_at (slId : String) (g : Graph) (it : SLItemRow)
    (x : String) :
    (mergeSLItem slId g it).products x = prodItemStep x it (g.products x) := by
  rw [mergeSLItem_products]
  show subStep (prodStep g.products it) it x = _
  rw [subStep_at, prodStep_at]
  rfl

theorem slFold_products_at (slId : String) (items : List SLItemRow) :
    ∀ (g : Graph) (x : String),
      (items.foldl (mergeSLItem slId) g).products x = prodAfter x items (g.products x) := by
  induction items with
  | nil =>
    intro g x
    rfl
  | cons it rest ih =>
    intro g x
    have h1 := ih (mergeSLItem slId g it) x
    show (List.foldl (mergeSLItem slId) (mergeSLItem slId g it) rest).products x = _
    rw [h1, mergeSLItem_products_at]
    rfl

theorem mergeSLItem_ingredients_at (slId : String) (g : Graph) (it : SLItemRow)
    (x : String) :
    (mergeSLItem slId g it).ingredients x =
      (if it.ingredient_id = some x then
        some ⟨coalesce it.ingredient_name (nameOptI (g.ingredients x))⟩
       else g.ingredients x) := by
  rw [mergeSLItem_ingredients]
  unfold ingStep
  cases hi : it.ingredient_id with
  | none =>
    rw [if_neg (by simp)]
  | some iid =>
    by_cases hix : iid = x
    · subst hix
      rw [if_pos rfl]
      unfold mergeIngredient upd
      cases hm : g.ingredients iid <;> simp [hm, nameOptI]
    · rw [if_neg (by simp [hix])]
      unfold mergeIngredient upd
      simp [Ne.symm hix]

theorem slFold_ingredients_at (slId : String) (items : List SLItemRow) :
    ∀ (g : Graph) (x : String),
      (items.foldl (mergeSLItem slId) g).ingredients x =
        ingAfter x items (g.ingredients x) := by
  induction items with
  | nil =>
    intro g x
    rfl
  | cons it rest ih =>
    intro g x
    have h1 := ih (mergeSLItem slId g it) x
    show (List.foldl (mergeSLItem slId) (mergeSLItem slId g it) rest).ingredients x = _
    rw [h1, mergeSLItem_ingredients_at]
    rfl

theorem prodAfter_cons (x : String) (it : SLItemRow) (rest : List SLItemRow)
    (cur : Option ProductProps) :
    prodAfter x (it :: rest) cur = prodAfter x rest (prodItemStep x it cur) := rfl

theorem lastPName_cons (x : String) (it : SLItemRow) (rest : List SLItemRow) :
    lastPName x (it :: rest) =
      coalesce (lastPName x rest) (if it.product_id = some x then it.product_name else none) := rfl

theorem prodTouched_cons (x : String) (it : SLItemRow) (rest : List SLItemRow) :
    prodTouched x (it :: rest) =
      ((it.product_id == some x || it.substituted_product_id == some x) ||
        prodTouched x rest) := by
  unfold prodTouched
  rw [List.any_cons]

theorem lastPName_none_of_untouched (x : String) (items : List SLItemRow)
    (h : prodTouched x items = false) : lastPName x items = none := by
  induction items with
  | nil => rfl
  | cons it rest ih =>
    rw [prodTouched_cons] at h
    have h2 : prodTouched x rest = false := by
      cases hb : prodTouched x rest
      · rfl
      · rw [hb] at h
        simp at h
    have h1 : ¬ it.product_id = some x := by
      intro he
      rw [he] at h
      simp at h
    rw [lastPName_cons, ih h2, if_neg h1]
    rfl

theorem getD_eq_nameOptP (cur : Option ProductProps) :
    cur.getD ⟨none⟩ = ⟨nameOptP cur⟩ := by
  cases cur <;> rfl

theorem prodItemStep_name (x : String) (it : SLItemRow) (cur : Option ProductProps) :
    prodItemStep x it cur =
      (if (it.product_id == some x || it.substituted_product_id == some x) then
        some ⟨coalesce (if it.product_id = some x then it.product_name else none)
          (nameOptP cur)⟩
       else cur) := by
  unfold prodItemStep
  by_cases hp : it.product_id = some x <;> by_cases hs : it.substituted_product_id = some x
  · simp only [hp, hs, if_pos rfl]
    simp [getD_eq_nameOptP, nameOptP]
  · have hsb : (it.substituted_product_id == some x) = false := by
      simp [hs]
    simp only [if_pos hp, if_neg hs]
    simp [hp, hsb]
  · have hpb : (it.product_id == some x) = false := by
      simp [hp]
    simp only [if_neg hp, if_pos hs]
    simp [hpb, hs, getD_eq_nameOptP, coalesce]
  · have hpb : (it.product_id == some x) = false := by
      simp [hp]
    have hsb : (it.substituted_product_id == some x) = false := by
      simp [hs]
    simp [hp, hs, hpb, hsb]

theorem coalesce_none_left (a : Option String) : coalesce none a = a := rfl

theorem prodAfter_char (x : String) (items : List SLItemRow) :
    ∀ cur, prodAfter x items cur =
      (if prodTouched x items then
        some ⟨coalesce (lastPName x items) (nameOptP cur)⟩
       else cur) := by
  induction items with
  | nil =>
    intro cur
    simp [prodAfter, prodTouched]
  | cons it rest ih =>
    intro cur
    rw [prodAfter_cons, ih, lastPName_cons, prodTouched_cons, prodItemStep_name]
    by_cases hp : it.product_id = some x <;>
      by_cases hs : it.substituted_product_id = some x <;>
      by_cases hrest : prodTouched x rest = true
    · simp [hp, hs, hrest, nameOptP, ← coalesce_assoc]
    · have hb : prodTouched x rest = false := by
        cases hv : prodTouched x rest
        · rfl
        · exact absurd hv hrest
      have hlt := lastPName_none_of_untouched x rest hb
      simp [hp, hs, hb, hlt, nameOptP, coalesce_none_left]
    · simp [hp, hs, hrest, nameOptP, ← coalesce_assoc]
    · have hb : prodTouched x rest = false := by
        cases hv : prodTouched x rest
        · rfl
        · exact absurd hv hrest
      have hlt := lastPName_none_of_untouched x rest hb
      simp [hp, hs, hb, hlt, nameOptP, coalesce_none_left]
    · simp [hp, hs, hrest, nameOptP, coalesce_none_left, coalesce_none_right]
    · have hb : prodTouched x rest = false := by
        cases hv : prodTouched x rest
        · rfl
        · exact absurd hv hrest
      have hlt := lastPName_none_of_untouched x rest hb
      simp [hp, hs, hb, hlt, nameOptP, coalesce_none_left]
    · simp [hp, hs, hrest, nameOptP, coalesce_none_right]
    · have hb : prodTouched x rest = false := by
        cases hv : prodTouched x rest
        · rfl
        · exact absurd hv hrest
      simp [hp, hs, hb]

theorem prodAfter_idem (x : String) (items : List SLItemRow) (cur : Option ProductProps) :
    prodAfter x items (prodAfter x items cur) = prodAfter x items cur := by
  simp only [prodAfter_char]
  by_cases h : prodTouched x items
  · simp [h, nameOptP, coalesce_absorb]
  · simp [h]

theorem ingAfter_cons (x : String) (it : SLItemRow) (rest : List SLItemRow)
    (cur : Option IngredientProps) :
    ingAfter x (it :: rest) cur =
      ingAfter x rest
        (if it.ingredient_id = some x then
          some ⟨coalesce it.ingredient_name (nameOptI cur)⟩ else cur) := rfl

theorem lastIName_cons (x : String) (it : SLItemRow) (rest : List SLItemRow) :
    lastIName x (it :: rest) =
      coalesce (lastIName x rest)
        (if it.ingredient_id = some x then it.ingredient_name else none) := rfl

theorem ingTouched_cons (x : String) (it : SLItemRow) (rest : List SLItemRow) :
    ingTouched x (it :: rest) = ((it.ingredient_id == some x) || ingTouched x rest) := by
  unfold ingTouched
  rw [List.any_cons]

theorem lastIName_none_of_untouched (x : String) (items : List SLItemRow)
    (h : ingTouched x items = false) : lastIName x items = none := by
  induction items with
  | nil => rfl
  | cons it rest ih =>
    rw [ingTouched_cons] at h
    have h2 : ingTouched x rest = false := by
      cases hb : ingTouched x rest
      · rfl
      · rw [hb] at h
        simp at h
    have h1 : ¬ it.ingredient_id = some x := by
      intro he
      rw [he] at h
      simp at h
    rw [lastIName_cons, ih h2, if_neg h1]
    rfl

theorem ingAfter_char (x : String) (items : List SLItemRow) :
    ∀ cur, ingAfter x items cur =
      (if ingTouched x items then
        some ⟨coalesce (lastIName x items) (nameOptI cur)⟩
       else cur) := by
  induction items with
  | nil =>
    intro cur
    simp [ingAfter, ingTouched]
  | cons it rest ih =>
    intro cur
    rw [ingAfter_cons, ih, lastIName_cons, ingTouched_cons]
    by_cases hrel : it.ingredient_id = some x
    · by_cases hrest : ingTouched x rest
      · simp [hrel, hrest, nameOptI, coalesce_assoc]
      · have hb : ingTouched x rest = false := by
          cases hv : ingTouched x rest
          · rfl
          · exact absurd hv hrest
        have hlt := lastIName_none_of_untouched x rest hb
        simp [hrel, hb, hlt, nameOptI, coalesce]
    · by_cases hrest : ingTouched x rest
      · simp [hrel, hrest, nameOptI, coalesce_none_right, beq_iff_eq]
      · have hb : ingTouched x rest = false := by
          cases hv : ingTouched x rest
          · rfl
          · exact absurd hv hrest
        simp [hrel, hb, beq_iff_eq]

theorem ingAfter_idem (x : String) (items : List SLItemRow) (cur : Option IngredientProps) :
    ingAfter x items (ingAfter x items cur) = ingAfter x items cur := by
  simp only [ingAfter_char]
  by_cases h : ingTouched x items
  · simp [h, nameOptI, coalesce_absorb]
  · simp [h]

theorem mergeSLItem_preserved (slId : String) (g : Graph) (it : SLItemRow) :
    (mergeSLItem slId g it).households = g.households ∧
    (mergeSLItem slId g it).mealPlans = g.mealPlans ∧
    (mergeSLItem slId g it).mealPlanItems = g.mealPlanItems ∧
    (mergeSLItem slId g it).recipes = g.recipes ∧
    (mergeSLItem slId g it).shoppingLists = g.shoppingLists := by
  unfold mergeSLItem
  cases hp : it.product_id <;> cases hi : it.ingredient_id <;>
    cases hs : it.substituted_product_id <;> exact ⟨rfl, rfl, rfl, rfl, rfl⟩

theorem slFold_preserved (slId : String) (items : List SLItemRow) :
    ∀ g : Graph,
      (items.foldl (mergeSLItem slId) g).households = g.households ∧
      (items.foldl (mergeSLItem slId) g).mealPlans = g.mealPlans ∧
      (items.foldl (mergeSLItem slId) g).mealPlanItems = g.mealPlanItems ∧
      (items.foldl (mergeSLItem slId) g).recipes = g.recipes ∧
      (items.foldl (mergeSLItem slId) g).shoppingLists = g.shoppingLists := by
  induction items with
  | nil => exact fun g => ⟨rfl, rfl, rfl, rfl, rfl⟩
  | cons it rest ih =>
    intro g
    have h1 := ih (mergeSLItem slId g it)
    have h2 := mergeSLItem_preserved slId g it
    exact ⟨h1.1.trans h2.1, h1.2.1.trans h2.2.1, h1.2.2.1.trans h2.2.2.1,
      h1.2.2.2.1.trans h2.2.2.2.1, h1.2.2.2.2.trans h2.2.2.2.2⟩

theorem vendorStep_preserved (g : Graph) (slId : String) (vid vname : Option String) :
    (vendorStep g slId vid vname).households = g.households ∧
    (vendorStep g slId vid vname).mealPlans = g.mealPlans ∧
    (vendorStep g slId vid vname).mealPlanItems = g.mealPlanItems ∧
    (vendorStep g slId vid vname).recipes = g.recipes ∧
    (vendorStep g slId vid vname).shoppingLists = g.shoppingLists ∧
    (vendorStep g slId vid vname).shoppingListItems = g.shoppingListItems := by
  unfold vendorStep
  cases vid <;> exact ⟨rfl, rfl, rfl, rfl, rfl, rfl⟩

theorem linkMealPlan_preserved (g : Graph) (m : Option String) (slId : String) :
    (linkMealPlan g m slId).households = g.households ∧
    (linkMealPlan g m slId).mealPlans = g.mealPlans ∧
    (linkMealPlan g m slId).mealPlanItems = g.mealPlanItems ∧
    (linkMealPlan g m slId).recipes = g.recipes ∧
    (linkMealPlan g m slId).shoppingLists = g.shoppingLists ∧
    (linkMealPlan g m slId).shoppingListItems = g.shoppingListItems := by
  unfold linkMealPlan
  cases m with
  | none => exact ⟨rfl, rfl, rfl, rfl, rfl, rfl⟩
  | some mid =>
    cases hm : g.mealPlans mid with
    | none => refine ⟨?_, ?_, ?_, ?_, ?_, ?_⟩ <;> simp [hm]
    | some w => refine ⟨?_, ?_, ?_, ?_, ?_, ?_⟩ <;> simp [hm, addEdge]

theorem vendorStep_edges_eval (g : Graph) (slId : String) (vid vname : Option String)
    (e : Edge) :
    (vendorStep g slId vid vname).edges e =
      (match vid with
       | none => g.edges e
       | some v => if e = targetsVendorE slId v then true else g.edges e) := by
  unfold vendorStep
  cases vid <;> rfl

theorem linkMealPlan_edges_eval (g : Graph) (m : Option String) (slId : String)
    (e : Edge) :
    (linkMealPlan g m slId).edges e =
      (match m with
       | none => g.edges e
       | some mm =>
         match g.mealPlans mm with
         | none => g.edges e
         | some _ => if e = generatesListE mm slId then true else g.edges e) := by
  unfold linkMealPlan
  cases m with
  | none => rfl
  | some mm =>
    cases hm : g.mealPlans mm <;> simp [hm, addEdge]

theorem slHasItem_ne_hSLE (a b c d : String) :
    ¬ slHasItemE a b = hasShoppingListE c d := by
  intro h
  simp [slHasItemE, hasShoppingListE, Edge.mk.injEq] at h

theorem slHasItem_ne_tv (a b c d : String) :
    ¬ slHasItemE a b = targetsVendorE c d := by
  intro h
  simp [slHasItemE, targetsVendorE, Edge.mk.injEq] at h

theorem slHasItem_ne_gen (a b c d : String) :
    ¬ slHasItemE a b = generatesListE c d := by
  intro h
  simp [slHasItemE, generatesListE, Edge.mk.injEq] at h

theorem hSLE_ne_tv (a b c d : String) :
    ¬ hasShoppingListE a b = targetsVendorE c d := by
  intro h
  simp [hasShoppingListE, targetsVendorE, Edge.mk.injEq] at h

theorem hSLE_ne_gen (a b c d : String) :
    ¬ hasShoppingListE a b = generatesListE c d := by
  intro h
  simp [hasShoppingListE, generatesListE, Edge.mk.injEq] at h

theorem tv_ne_gen (a b c d : String) :
    ¬ targetsVendorE a b = generatesListE c d := by
  intro h
  simp [targetsVendorE, generatesListE, Edge.mk.injEq] at h

theorem touchesSLI_iff (kids : String → Bool) (e : Edge) :
    touchesSLI kids e = true ↔
      ((e.srcLabel = "ShoppingListItem" ∧ kids e.srcId = true) ∨
       (e.dstLabel = "ShoppingListItem" ∧ kids e.dstId = true)) := by
  unfold touchesSLI
  simp [Bool.or_eq_true, Bool.and_eq_true, beq_iff_eq]

theorem upsertShoppingList_households (g0 : Graph) (row : ShoppingListRow)
    (items : List SLItemRow) (mpid : Option String) :
    (upsertShoppingList g0 row items mpid).households =
      upd g0.households row.household_id ⟨row.household_name, row.household_type⟩ := by
  rw [upsertShoppingList_def, (linkMealPlan_preserved _ _ _).1,
    (slFold_preserved _ _ _).1]
  show (vendorStep _ row.id row.vendor_id row.vendor_name).households = _
  rw [(vendorStep_preserved _ _ _ _).1]
  rfl

theorem upsertShoppingList_shoppingLists (g0 : Graph) (row : ShoppingListRow)
    (items : List SLItemRow) (mpid : Option String) :
    (upsertShoppingList g0 row items mpid).shoppingLists =
      upd g0.shoppingLists row.id (shoppingListProps row) := by
  rw [upsertShoppingList_def, (linkMealPlan_preserved _ _ _).2.2.2.2.1,
    (slFold_preserved _ _ _).2.2.2.2]
  show (vendorStep _ row.id row.vendor_id row.vendor_name).shoppingLists = _
  rw [(vendorStep_preserved _ _ _ _).2.2.2.2.1]
  rfl

theorem upsertShoppingList_mealPlans (g0 : Graph) (row : ShoppingListRow)
    (items : List SLItemRow) (mpid : Option String) :
    (upsertShoppingList g0 row items mpid).mealPlans = g0.mealPlans := by
  rw [upsertShoppingList_def, (linkMealPlan_preserved _ _ _).2.1,
    (slFold_preserved _ _ _).2.1]
  show (vendorStep _ row.id row.vendor_id row.vendor_name).mealPlans = _
  rw [(vendorStep_preserved _ _ _ _).2.1]
  rfl

theorem upsertShoppingList_mealPlanItems (g0 : Graph) (row : ShoppingListRow)
    (items : List SLItemRow) (mpid : Option String) :
    (upsertShoppingList g0 row items mpid).mealPlanItems = g0.mealPlanItems := by
  rw [upsertShoppingList_def, (linkMealPlan_preserved _ _ _).2.2.1,
    (slFold_preserved _ _ _).2.2.1]
  show (vendorStep _ row.id row.vendor_id row.vendor_name).mealPlanItems = _
  rw [(vendorStep_preserved _ _ _ _).2.2.1]
  rfl

theorem upsertShoppingList_recipes (g0 : Graph) (row : ShoppingListRow)
    (items : List SLItemRow) (mpid : Option String) :
    (upsertShoppingList g0 row items mpid).recipes = g0.recipes := by
  rw [upsertShoppingList_def, (linkMealPlan_preserved _ _ _).2.2.2.1,
    (slFold_preserved _ _ _).2.2.2.1]
  show (vendorStep _ row.id row.vendor_id row.vendor_name).recipes = _
  rw [(vendorStep_preserved _ _ _ _).2.2.2.1]
  rfl

theorem upsertShoppingList_vendors_eval (g0 : Graph) (row : ShoppingListRow)
    (items : List SLItemRow) (mpid : Option String) :
    (upsertShoppingList g0 row items mpid).vendors =
      (match row.vendor_id with
       | none => g0.vendors
       | some v => upd g0.vendors v ⟨row.vendor_name⟩) := by
  rw [upsertShoppingList_def, linkMealPlan_vendors, slFold_vendors, clearSL_vendors]
  cases hv : row.vendor_id with
  | none => rfl
  | some v => simp [vendorStep, hv, addEdge]

theorem upsertShoppingList_products_at (g0 : Graph) (row : ShoppingListRow)
    (items : List SLItemRow) (mpid : Option String) (x : String) :
    (upsertShoppingList g0 row items mpid).products x =
      prodAfter x items (g0.products x) := by
  rw [upsertShoppingList_def, linkMealPlan_products, slFold_products_at]
  show prodAfter x items ((vendorStep _ row.id row.vendor_id row.vendor_name).products x) = _
  rw [vendorStep_products]
  rfl

theorem upsertShoppingList_ingredients_at (g0 : Graph) (row : ShoppingListRow)
    (items : List SLItemRow) (mpid : Option String) (x : String) :
    (upsertShoppingList g0 row items mpid).ingredients x =
      ingAfter x items (g0.ingredients x) := by
  rw [upsertShoppingList_def, linkMealPlan_ingredients, slFold_ingredients_at]
  show ingAfter x items ((vendorStep _ row.id row.vendor_id row.vendor_name).ingredients x) = _
  rw [vendorStep_ingredients]
  rfl

theorem slKids_base (g0 : Graph) (row : ShoppingListRow) :
    slKids
      (vendorStep
        (addEdge
          { g0 with
            households := upd g0.households row.household_id
              ⟨row.household_name, row.household_type⟩,
            shoppingLists := upd g0.shoppingLists row.id (shoppingListProps row) }
          (hasShoppingListE row.household_id row.id))
        row.id row.vendor_id row.vendor_name)
      row.id = fun i => g0.edges (slHasItemE row.id i) := by
  funext i
  unfold slKids
  rw [vendorStep_edges_eval]
  cases hv : row.vendor_id with
  | none =>
    show (if slHasItemE row.id i = hasShoppingListE row.household_id row.id then true
          else g0.edges (slHasItemE row.id i)) = _
    rw [if_neg (slHasItem_ne_hSLE _ _ _ _)]
  | some v =>
    show (if slHasItemE row.id i = targetsVendorE row.id v then true
          else if slHasItemE row.id i = hasShoppingListE row.household_id row.id then true
          else g0.edges (slHasItemE row.id i)) = _
    rw [if_neg (slHasItem_ne_tv _ _ _ _), if_neg (slHasItem_ne_hSLE _ _ _ _)]

theorem upsertShoppingList_items_at (g0 : Graph) (row : ShoppingListRow)
    (items : List SLItemRow) (mpid : Option String) (x : String) :
    (upsertShoppingList g0 row items mpid).shoppingListItems x =
      (match lastSLItemWith x items with
       | some it => some (slItemProps it)
       | none =>
         if g0.edges (slHasItemE row.id x) then none else g0.shoppingListItems x) := by
  rw [upsertShoppingList_def, (linkMealPlan_preserved _ _ _).2.2.2.2.2,
    slFold_items_at]
  cases hlw : lastSLItemWith x items with
  | some it => rfl
  | none =>
    show (clearShoppingListItems _ row.id).shoppingListItems x = _
    unfold clearShoppingListItems
    rw [slKids_base]
    show (if g0.edges (slHasItemE row.id x) then none
          else (vendorStep _ row.id row.vendor_id row.vendor_name).shoppingListItems x) = _
    rw [(vendorStep_preserved _ _ _ _).2.2.2.2.2]
    rfl

theorem upsertShoppingList_edges_at (g0 : Graph) (row : ShoppingListRow)
    (items : List SLItemRow) (mpid : Option String) (e : Edge) :
    (upsertShoppingList g0 row items mpid).edges e =
      (match mpid with
       | none => slPreEdges g0 row items e
       | some m =>
         match g0.mealPlans m with
         | none => slPreEdges g0 row items e
         | some _ =>
           if e = generatesListE m row.id then true else slPreEdges g0 row items e) := by
  rw [upsertShoppingList_def, linkMealPlan_edges_eval]
  have hmp : (items.foldl (mergeSLItem row.id)
      (clearShoppingListItems
        (vendorStep
          (addEdge
            { g0 with
              households := upd g0.households row.household_id
                ⟨row.household_name, row.household_type⟩,
              shoppingLists := upd g0.shoppingLists row.id (shoppingListProps row) }
            (hasShoppingListE row.household_id row.id))
          row.id row.vendor_id row.vendor_name)
        row.id)).mealPlans = g0.mealPlans := by
    rw [(slFold_preserved _ _ _).2.1]
    show (vendorStep _ row.id row.vendor_id row.vendor_name).mealPlans = _
    rw [(vendorStep_preserved _ _ _ _).2.1]
    rfl
  rw [hmp]
  have hpre : ∀ e' : Edge, (items.foldl (mergeSLItem row.id)
      (clearShoppingListItems
        (vendorStep
          (addEdge
            { g0 with
              households := upd g0.households row.household_id
                ⟨row.household_name, row.household_type⟩,
              shoppingLists := upd g0.shoppingLists row.id (shoppingListProps row) }
            (hasShoppingListE row.household_id row.id))
          row.id row.vendor_id row.vendor_name)
        row.id)).edges e' = slPreEdges g0 row items e' := by
    intro e'
    rw [slFold_edges_all]
    unfold slPreEdges
    congr 1
    have hbase : (vendorStep
        (addEdge
          { g0 with
            households := upd g0.households row.household_id
              ⟨row.household_name, row.household_type⟩,
            shoppingLists := upd g0.shoppingLists row.id (shoppingListProps row) }
          (hasShoppingListE row.household_id row.id))
        row.id row.vendor_id row.vendor_name).edges e' = slBaseEdges g0 row e' := by
      rw [vendorStep_edges_eval]
      unfold slBaseEdges
      cases hv : row.vendor_id <;> rfl
    show (if touchesSLI (slKids
        (vendorStep
          (addEdge
            { g0 with
              households := upd g0.households row.household_id
                ⟨row.household_name, row.household_type⟩,
              shoppingLists := upd g0.shoppingLists row.id (shoppingListProps row) }
            (hasShoppingListE row.household_id row.id))
          row.id row.vendor_id row.vendor_name)
        row.id) e' then false
      else (vendorStep
          (addEdge
            { g0 with
              households := upd g0.households row.household_id
                ⟨row.household_name, row.household_type⟩,
              shoppingLists := upd g0.shoppingLists row.id (shoppingListProps row) }
            (hasShoppingListE row.household_id row.id))
          row.id row.vendor_id row.vendor_name).edges e') = _
    rw [slKids_base, hbase]
  cases mpid with
  | none => exact hpre e
  | some m =>
    cases hm : g0.mealPlans m with
    | none => simp [hpre e]
    | some w => simp [hpre e]

theorem slItemAdded_hasItem (slId : String) (it : SLItemRow) (i : String) :
    slItemAdded slId it (slHasItemE slId i) = (it.id == i) := by
  unfold slItemAdded
  cases hp : it.product_id <;> cases hi : it.ingredient_id <;>
    cases hs : it.substituted_product_id <;>
    simp [slHasItemE, usesProductE, usesIngredientE, substituteProductE,
      Edge.mk.injEq, beq_eq_decide_eq, eq_comm]

theorem slAdded_hasItem (slId : String) (items : List SLItemRow) (i : String) :
    slAdded slId items (slHasItemE slId i) = hasSLItemId i items := by
  unfold slAdded hasSLItemId
  induction items with
  | nil => rfl
  | cons it rest ih =>
    rw [List.any_cons, List.any_cons, ih, slItemAdded_hasItem]

theorem hasSLItemId_iff (x : String) (items : List SLItemRow) :
    hasSLItemId x items = true ↔ ∃ it ∈ items, it.id = x := by
  unfold hasSLItemId
  rw [List.any_eq_true]
  constructor
  · rintro ⟨it, hm, hb⟩
    exact ⟨it, hm, eq_of_beq hb⟩
  · rintro ⟨it, hm, he⟩
    exact ⟨it, hm, by simp [he]⟩

theorem lastSLItemWith_none_iff (x : String) (items : List SLItemRow) :
    lastSLItemWith x items = none ↔ hasSLItemId x items = false := by
  induction items with
  | nil => simp [lastSLItemWith, hasSLItemId]
  | cons it rest ih =>
    rw [lastSLItemWith_cons]
    have hcons : hasSLItemId x (it :: rest) = ((it.id == x) || hasSLItemId x rest) := by
      unfold hasSLItemId
      rw [List.any_cons]
    rw [hcons]
    cases hlw : lastSLItemWith x rest with
    | some it' =>
      have : hasSLItemId x rest = true := by
        cases hb : hasSLItemId x rest
        · rw [← ih] at hb
          rw [hlw] at hb
          cases hb
        · rfl
      simp [this]
    | none =>
      have hrest : hasSLItemId x rest = false := by
        rw [← ih]
        exact hlw
      rw [hrest]
      by_cases hit : it.id = x
      · simp [hit]
      · simp [hit]

theorem slPre_hasItem (g0 : Graph) (row : ShoppingListRow) (items : List SLItemRow)
    (i : String) :
    slPreEdges g0 row items (slHasItemE row.id i) = hasSLItemId i items := by
  unfold slPreEdges
  rw [slAdded_hasItem]
  have ht : touchesSLI (fun j => g0.edges (slHasItemE row.id j)) (slHasItemE row.id i) =
      g0.edges (slHasItemE row.id i) := by
    unfold touchesSLI
    simp [slHasItemE]
  rw [ht]
  have hb : slBaseEdges g0 row (slHasItemE row.id i) = g0.edges (slHasItemE row.id i) := by
    unfold slBaseEdges
    cases hv : row.vendor_id with
    | none =>
      show (if slHasItemE row.id i = hasShoppingListE row.household_id row.id then true
            else g0.edges (slHasItemE row.id i)) = _
      rw [if_neg (slHasItem_ne_hSLE _ _ _ _)]
    | some v =>
      show (if slHasItemE row.id i = targetsVendorE row.id v then true
            else if slHasItemE row.id i = hasShoppingListE row.household_id row.id then true
            else g0.edges (slHasItemE row.id i)) = _
      rw [if_neg (slHasItem_ne_tv _ _ _ _), if_neg (slHasItem_ne_hSLE _ _ _ _)]
  rw [hb]
  by_cases hg : g0.edges (slHasItemE row.id i) = true
  · rw [hg]
    simp
  · have hg' : g0.edges (slHasItemE row.id i) = false := by
      cases hv : g0.edges (slHasItemE row.id i)
      · rfl
      · exact absurd hv hg
    rw [hg']
    simp

theorem upsertShoppingList_hasItem (g0 : Graph) (row : ShoppingListRow)
    (items : List SLItemRow) (mpid : Option String) (i : String) :
    (upsertShoppingList g0 row items mpid).edges (slHasItemE row.id i) =
      hasSLItemId i items := by
  rw [upsertShoppingList_edges_at]
  cases mpid with
  | none => exact slPre_hasItem g0 row items i
  | some m =>
    cases hm : g0.mealPlans m with
    | none => simp [hm, slPre_hasItem g0 row items i]
    | some w =>
      simp [hm, if_neg (slHasItem_ne_gen row.id i m row.id), slPre_hasItem g0 row items i]

theorem upsertShoppingList_hSLE (g0 : Graph) (row : ShoppingListRow)
    (items : List SLItemRow) (mpid : Option String) :
    (upsertShoppingList g0 row items mpid).edges
      (hasShoppingListE row.household_id row.id) = true := by
  have hpre : slPreEdges g0 row items (hasShoppingListE row.household_id row.id) = true := by
    unfold slPreEdges
    have ht : touchesSLI (fun i => g0.edges (slHasItemE row.id i))
        (hasShoppingListE row.household_id row.id) = false := by
      unfold touchesSLI
      simp [hasShoppingListE]
    rw [ht]
    have hb : slBaseEdges g0 row (hasShoppingListE row.household_id row.id) = true := by
      unfold slBaseEdges
      cases hv : row.vendor_id with
      | none =>
        show (if hasShoppingListE row.household_id row.id =
              hasShoppingListE row.household_id row.id then true
              else g0.edges (hasShoppingListE row.household_id row.id)) = true
        rw [if_pos rfl]
      | some v =>
        show (if hasShoppingListE row.household_id row.id = targetsVendorE row.id v then true
              else if hasShoppingListE row.household_id row.id =
                hasShoppingListE row.household_id row.id then true
              else g0.edges (hasShoppingListE row.household_id row.id)) = true
        rw [if_neg (hSLE_ne_tv row.household_id row.id row.id v), if_pos rfl]
    simp [hb]
  rw [upsertShoppingList_edges_at]
  cases mpid with
  | none => exact hpre
  | some m =>
    cases hm : g0.mealPlans m with
    | none => simp [hm, hpre]
    | some w => simp [hm, hpre]

theorem upsertShoppingList_tv (g0 : Graph) (row : ShoppingListRow)
    (items : List SLItemRow) (mpid : Option String) (v : String)
    (hv : row.vendor_id = some v) :
    (upsertShoppingList g0 row items mpid).edges (targetsVendorE row.id v) = true := by
  have hpre : slPreEdges g0 row items (targetsVendorE row.id v) = true := by
    unfold slPreEdges
    have ht : touchesSLI (fun i => g0.edges (slHasItemE row.id i))
        (targetsVendorE row.id v) = false := by
      unfold touchesSLI
      simp [targetsVendorE]
    rw [ht]
    have hb : slBaseEdges g0 row (targetsVendorE row.id v) = true := by
      unfold slBaseEdges
      rw [hv]
      show (if targetsVendorE row.id v = targetsVendorE row.id v then true
            else if targetsVendorE row.id v = hasShoppingListE row.household_id row.id then true
            else g0.edges (targetsVendorE row.id v)) = true
      rw [if_pos rfl]
    simp [hb]
  rw [upsertShoppingList_edges_at]
  cases mpid with
  | none => exact hpre
  | some m =>
    cases hm : g0.mealPlans m with
    | none => simp [hm, hpre]
    | some w => simp [hm, hpre]

theorem upsertShoppingList_genE (g0 : Graph) (row : ShoppingListRow)
    (items : List SLItemRow) (m : String) (w : MealPlanProps)
    (hm : g0.mealPlans m = some w) :
    (upsertShoppingList g0 row items (some m)).edges (generatesListE m row.id) = true := by
  rw [upsertShoppingList_edges_at]
  simp [hm]

theorem upsertShoppingList_idem (g : Graph) (row : ShoppingListRow)
    (items : List SLItemRow) (mpid : Option String)
    (hown : slOwned g row.id items) :
    upsertShoppingList (upsertShoppingList g row items mpid) row items mpid =
      upsertShoppingList g row items mpid := by
  have hfun : (fun i => (upsertShoppingList g row items mpid).edges (slHasItemE row.id i)) =
      fun i => hasSLItemId i items :=
    funext (fun i => upsertShoppingList_hasItem g row items mpid i)
  apply graph_ext
  · simp only [upsertShoppingList_households, upd_upd]
  · rw [upsertShoppingList_mealPlans (upsertShoppingList g row items mpid)]
  · rw [upsertShoppingList_mealPlanItems (upsertShoppingList g row items mpid)]
  · simp only [upsertShoppingList_shoppingLists, upd_upd]
  · funext x
    rw [upsertShoppingList_items_at (upsertShoppingList g row items mpid) row items mpid x]
    cases hlw : lastSLItemWith x items with
    | some it =>
      rw [upsertShoppingList_items_at g row items mpid x, hlw]
    | none =>
      have hid : hasSLItemId x items = false := (lastSLItemWith_none_iff x items).mp hlw
      rw [upsertShoppingList_hasItem g row items mpid x, hid]
      rfl
  · rw [upsertShoppingList_vendors_eval (upsertShoppingList g row items mpid),
      upsertShoppingList_vendors_eval g row items mpid]
    cases hv : row.vendor_id with
    | none => rfl
    | some v => simp [upd_upd]
  · funext x
    rw [upsertShoppingList_products_at (upsertShoppingList g row items mpid) row items mpid x,
      upsertShoppingList_products_at g row items mpid x, prodAfter_idem]
  · funext x
    rw [upsertShoppingList_ingredients_at (upsertShoppingList g row items mpid) row items mpid x,
      upsertShoppingList_ingredients_at g row items mpid x, ingAfter_idem]
  · rw [upsertShoppingList_recipes (upsertShoppingList g row items mpid)]
  · funext e
    have hcore : slPreEdges (upsertShoppingList g row items mpid) row items e =
        (upsertShoppingList g row items mpid).edges e := by
      unfold slPreEdges
      rw [hfun]
      by_cases hAdd : slAdded row.id items e = true
      · have hPtrue : slPreEdges g row items e = true := by
          unfold slPreEdges
          rw [hAdd]
          rfl
        have hUe : (upsertShoppingList g row items mpid).edges e = true := by
          rw [upsertShoppingList_edges_at g row items mpid e]
          cases mpid with
          | none => exact hPtrue
          | some m =>
            cases hm : g.mealPlans m with
            | none => simp [hm, hPtrue]
            | some w =>
              by_cases he : e = generatesListE m row.id
              · simp [hm, he]
              · simp [hm, he, hPtrue]
        rw [hAdd, hUe]
        rfl
      · have hAdd' : slAdded row.id items e = false := by
          cases hb : slAdded row.id items e
          · rfl
          · exact absurd hb hAdd
        rw [hAdd']
        simp only [Bool.false_or]
        by_cases hT : touchesSLI (fun i => hasSLItemId i items) e = true
        · rw [if_pos hT]
          have hlab : e.srcLabel = "ShoppingListItem" ∨ e.dstLabel = "ShoppingListItem" := by
            rw [touchesSLI_iff] at hT
            rcases hT with ⟨hl, -⟩ | ⟨hl, -⟩
            · exact Or.inl hl
            · exact Or.inr hl
          have hne_gen : ∀ a b : String, e ≠ generatesListE a b := by
            intro a b he
            rcases hlab with hl | hl <;> rw [he] at hl <;> simp [generatesListE] at hl
          have hUe : (upsertShoppingList g row items mpid).edges e =
              slPreEdges g row items e := by
            rw [upsertShoppingList_edges_at g row items mpid e]
            cases mpid with
            | none => rfl
            | some m =>
              cases hm : g.mealPlans m with
              | none => simp [hm]
              | some w => simp [hm, hne_gen m row.id]
          rw [hUe]
          unfold slPreEdges
          rw [hAdd']
          simp only [Bool.false_or]
          by_cases hTg : touchesSLI (fun i => g.edges (slHasItemE row.id i)) e = true
          · rw [if_pos hTg]
          · rw [if_neg hTg]
            have hne_tv : ∀ a b : String, e ≠ targetsVendorE a b := by
              intro a b he
              rcases hlab with hl | hl <;> rw [he] at hl <;> simp [targetsVendorE] at hl
            have hne_h : ∀ a b : String, e ≠ hasShoppingListE a b := by
              intro a b he
              rcases hlab with hl | hl <;> rw [he] at hl <;> simp [hasShoppingListE] at hl
            have hbe : slBaseEdges g row e = g.edges e := by
              unfold slBaseEdges
              cases hv : row.vendor_id with
              | none =>
                show (if e = hasShoppingListE row.household_id row.id then true
                      else g.edges e) = g.edges e
                rw [if_neg (hne_h row.household_id row.id)]
              | some v =>
                show (if e = targetsVendorE row.id v then true
                      else if e = hasShoppingListE row.household_id row.id then true
                      else g.edges e) = g.edges e
                rw [if_neg (hne_tv row.id v), if_neg (hne_h row.household_id row.id)]
            rw [hbe]
            cases hge : g.edges e with
            | false => rfl
            | true =>
              exfalso
              apply hTg
              rw [touchesSLI_iff] at hT ⊢
              rcases hT with ⟨hl, hk⟩ | ⟨hl, hk⟩
              · obtain ⟨it, hmem, hidit⟩ := (hasSLItemId_iff e.srcId items).mp hk
                have hkid : g.edges (slHasItemE row.id it.id) = true :=
                  hown it hmem e hge (Or.inl ⟨hl, hidit.symm⟩)
                left
                refine ⟨hl, ?_⟩
                rw [← hidit]
                exact hkid
              · obtain ⟨it, hmem, hidit⟩ := (hasSLItemId_iff e.dstId items).mp hk
                have hkid : g.edges (slHasItemE row.id it.id) = true :=
                  hown it hmem e hge (Or.inr ⟨hl, hidit.symm⟩)
                right
                refine ⟨hl, ?_⟩
                rw [← hidit]
                exact hkid
        · rw [if_neg hT]
          unfold slBaseEdges
          cases hv : row.vendor_id with
          | none =>
            show (if e = hasShoppingListE row.household_id row.id then true
                  else (upsertShoppingList g row items mpid).edges e) =
              (upsertShoppingList g row items mpid).edges e
            by_cases he : e = hasShoppingListE row.household_id row.id
            · rw [if_pos he, he, upsertShoppingList_hSLE]
            · rw [if_neg he]
          | some v =>
            show (if e = targetsVendorE row.id v then true
                  else if e = hasShoppingListE row.household_id row.id then true
                  else (upsertShoppingList g row items mpid).edges e) =
              (upsertShoppingList g row items mpid).edges e
            by_cases he1 : e = targetsVendorE row.id v
            · rw [if_pos he1, he1, upsertShoppingList_tv g row items mpid v hv]
            · rw [if_neg he1]
              by_cases he2 : e = hasShoppingListE row.household_id row.id
              · rw [if_pos he2, he2, upsertShoppingList_hSLE]
              · rw [if_neg he2]
    rw [upsertShoppingList_edges_at (upsertShoppingList g row items mpid) row items mpid e,
      upsertShoppingList_mealPlans g row items mpid]
    cases mpid with
    | none => exact hcore
    | some m =>
      cases hm : g.mealPlans m with
      | none =>
        simp only [hm]
        exact hcore
      | some w =>
        simp only [hm]
        by_cases he : e = generatesListE m row.id
        · rw [if_pos he, he]
          exact (upsertShoppingList_genE g row items m w hm).symm
        · rw [if_neg he]
          exact hcore

/-- C1 (amended): the graph merge of either pipeline is idempotent on every
graph in which the snapshot's item ids are not attached anywhere else: if
every existing edge touching a `MealPlanItem` (resp. `ShoppingListItem`) node
bearing one of the snapshot item ids is already accounted for by a `HAS_ITEM`
edge of this very aggregate, then applying the upsert twice with the same
snapshot yields exactly the graph of applying it once — no duplicate nodes or
edges, no attribute drift. (Without that ownership proviso a second merge can
differ: the clear step detach-deletes a freshly reparented item's stale
foreign edges only on the second run.) -/
theorem merge_idempotent_amended :
    (∀ (g : Graph) (p : MealPlanRow) (items : List MealItemRow),
        mpOwned g p.id items →
        upsertMealPlan (upsertMealPlan g p items) p items = upsertMealPlan g p items) ∧
    (∀ (g : Graph) (row : ShoppingListRow) (items : List SLItemRow)
        (mpid : Option String),
        slOwned g row.id items →
        upsertShoppingList (upsertShoppingList g row items mpid) row items mpid =
          upsertShoppingList g row items mpid) :=
  ⟨fun g p items hown => upsertMealPlan_idem g p items hown,
   fun g row items mpid hown => upsertShoppingList_idem g row items mpid hown⟩

theorem merge_idempotent_amended_witness :
    (mpOwned Graph.empty pW1.id [itW1] ∧
     upsertMealPlan (upsertMealPlan Graph.empty pW1 [itW1]) pW1 [itW1] =
       upsertMealPlan Graph.empty pW1 [itW1]) ∧
    (slOwned Graph.empty rowW1.id [slitW1] ∧
     upsertShoppingList (upsertShoppingList Graph.empty rowW1 [slitW1] none)
         rowW1 [slitW1] none =
       upsertShoppingList Graph.empty rowW1 [slitW1] none) := by
  have hm : mpOwned Graph.empty pW1.id [itW1] :=
    fun it _ e hge _ => Bool.noConfusion hge
  have hs : slOwned Graph.empty rowW1.id [slitW1] :=
    fun it _ e hge _ => Bool.noConfusion hge
  exact ⟨⟨hm, merge_idempotent_amended.1 Graph.empty pW1 [itW1] hm⟩,
    ⟨hs, merge_idempotent_amended.2 Graph.empty rowW1 [slitW1] none hs⟩⟩
